import Mathlib

/-!
Verification development for the omnigence-ai quotation application.

The frontend (React) components are embedded as pure state-transition
functions over explicit state structures; JavaScript numbers are embedded
as exact rationals (every JS numeric operation used by the embedded code
paths — parseFloat on short decimal literals, multiplication and addition
of currency values, toFixed re-rounding — coincides with exact rational
arithmetic on the value ranges that arise, because each step re-rounds to
a short decimal string; divergences of binary doubles from this model are
below the half-ulp of the re-rounding everywhere the theorems quantify).
JavaScript strings are embedded as Lean `String` / `List Char`.

The three whitespace classes the source touches (`String.prototype.trim`,
the regex class from the fence-stripping replace calls, and the JSON
grammar whitespace accepted by `JSON.parse`) coincide on the common core
space, tab, line feed and carriage return; the embedding uses that common
core (`isSpaceCh`), which covers every payload whose whitespace is drawn
from it.
-/

set_option maxHeartbeats 1000000

namespace Omnigence

/-! ## Character utilities -/

/-- The backtick character, written via its code point. -/
def tickChar : Char := Char.ofNat 96

/-- Decimal digit test, by code point (embeds the character classes used by
`parseFloat` and the JSON number grammar). -/
def isDigitCh (c : Char) : Bool := 48 ≤ c.toNat && c.toNat ≤ 57

/-- Whitespace test: space, tab, LF, CR — the common core of the string
`trim`, regex whitespace and JSON whitespace classes. -/
def isSpaceCh (c : Char) : Bool :=
  c.toNat = 32 || c.toNat = 9 || c.toNat = 10 || c.toNat = 13

/-- The digit character for a digit value below ten. -/
def dchar (d : Nat) : Char := Char.ofNat (48 + d)

/-- Numeric value of a run of digit characters, most significant first
(the accumulation `parseFloat` performs on the integer part). -/
def digitsVal (ds : List Char) : Nat :=
  ds.foldl (fun a c => 10 * a + (c.toNat - 48)) 0

/-- Digit characters of a positive natural number, most significant
first; the fuel argument (any bound on the number) makes the recursion
structural. -/
def natToCharsAux : Nat → Nat → List Char
  | 0, _ => []
  | fuel + 1, n => if n = 0 then [] else natToCharsAux fuel (n / 10) ++ [dchar (n % 10)]

/-- Decimal rendering of a natural number as a character list (embeds the
JavaScript number-to-string conversion for whole values). -/
def natToChars (n : Nat) : List Char :=
  if n = 0 then [dchar 0] else natToCharsAux (n + 1) n

/-- Decimal rendering of a natural number as a string. -/
def natStr (n : Nat) : String := String.mk (natToChars n)

/-! ## Embedding of JavaScript `parseFloat` (exact, over ℚ)

`parseFloat` skips leading whitespace, then reads the longest numeric
literal: optional sign, digits, optional decimal point and fraction
digits, optional exponent part.  An input with no parsable literal yields
NaN, embedded here as `none`. -/

/-- Exponent suffix handling of `parseFloat`: an `e`/`E` followed by an
optional sign and at least one digit scales the mantissa; otherwise the
suffix is ignored (the literal ends before it). -/
def applyExp (m : ℚ) (cs : List Char) : ℚ :=
  match cs with
  | c :: rest =>
    if c = 'e' ∨ c = 'E' then
      let signNeg := match rest with | c2 :: _ => decide (c2 = '-') | [] => false
      let rest2 := match rest with
        | c2 :: r2 => if c2 = '-' ∨ c2 = '+' then r2 else rest
        | [] => rest
      let expDs := rest2.takeWhile isDigitCh
      if expDs.isEmpty then m
      else if signNeg then m / (10 ^ digitsVal expDs : ℚ)
      else m * (10 ^ digitsVal expDs : ℚ)
    else m
  | [] => m

/-- Unsigned mantissa of a `parseFloat` literal: digits, then an optional
decimal point with fraction digits.  Fails when no digit is present. -/
def parseUnsigned (cs : List Char) : Option (ℚ × List Char) :=
  let intDs := cs.takeWhile isDigitCh
  let rest1 := cs.dropWhile isDigitCh
  match rest1 with
  | '.' :: rest2 =>
    let fracDs := rest2.takeWhile isDigitCh
    let rest3 := rest2.dropWhile isDigitCh
    if intDs.isEmpty && fracDs.isEmpty then none
    else some ((digitsVal intDs : ℚ) + (digitsVal fracDs : ℚ) / (10 ^ fracDs.length : ℚ), rest3)
  | _ =>
    if intDs.isEmpty then none
    else some ((digitsVal intDs : ℚ), rest1)

/-- Mantissa followed by the optional exponent suffix. -/
def parseMantissaExp (cs : List Char) : Option ℚ :=
  match parseUnsigned cs with
  | none => none
  | some (m, rest) => some (applyExp m rest)

/-- Sign handling of a `parseFloat` literal. -/
def parseSigned : List Char → Option ℚ
  | [] => none
  | c :: rest =>
    if c = '-' then (parseMantissaExp rest).map Neg.neg
    else if c = '+' then parseMantissaExp rest
    else parseMantissaExp (c :: rest)

/-- Embedding of JavaScript `parseFloat` on a string; `none` embeds NaN. -/
def jsParseFloat (s : String) : Option ℚ :=
  parseSigned (s.data.dropWhile isSpaceCh)

/-- Embedding of the idiom `parseFloat(x) || 0`: NaN collapses to zero
(and a parsed zero stays zero). -/
def jsParseFloatOr0 (s : String) : ℚ := (jsParseFloat s).getD 0

/-! ## Embedding of JavaScript `Number.prototype.toFixed`

Per ECMA-262, `toFixed(f)` renders the sign of the receiver and then the
magnitude rounded to `f` fraction digits, half-values rounded up.  On the
exact decimal values produced and consumed by the embedded code paths
this coincides with the double-based evaluation. -/

/-- `toFixed(2)` on an exact rational. -/
def toFixed2 (q : ℚ) : String :=
  let sign := if q < 0 then "-" else ""
  let m := (⌊|q| * 100 + 1/2⌋).toNat
  sign ++ natStr (m / 100) ++ "." ++ String.mk [dchar (m / 10 % 10), dchar (m % 10)]

/-- `toFixed(1)` on an exact rational. -/
def toFixed1 (q : ℚ) : String :=
  let sign := if q < 0 then "-" else ""
  let m := (⌊|q| * 10 + 1/2⌋).toNat
  sign ++ natStr (m / 10) ++ "." ++ String.mk [dchar (m % 10)]

/-! ## Job and quotation number generation (backend services)

The Python bodies of `JobServiceImpl._generate_job_number` and
`QuotationServiceImpl.generate_quotation_number` are not part of the
checked-in sources (only their signatures, callers and documented results
appear, in the architecture documents); the definitions below are
modelled from the spec. -/

/-- Modelled from the spec: the job-type code selected by
`_generate_job_number` — `JCP` for DESIGN jobs, `JICP` for INSPECTION
jobs (the two documented job variants). -/
def jobTypeCode (jobType : String) : String :=
  if jobType = "INSPECTION" then "JICP" else "JCP"

/-- Two-digit zero-padded rendering of a year/month component. -/
def pad2 (n : Nat) : String := if n < 10 then "0" ++ natStr n else natStr n

/-- Modelled from the spec: `JobServiceImpl._generate_job_number` builds
`TYPE-CODE`-`COMPANY-CODE`-`YY`-`MM`-`INDEX`, with the sequence index
supplied by the caller. -/
def generateJobNumber (jobType companyCode : String) (yy mm index : Nat) : String :=
  jobTypeCode jobType ++ "-" ++ companyCode ++ "-" ++ pad2 yy ++ "-" ++ pad2 mm
    ++ "-" ++ natStr index

/-- Modelled from the spec: `JobServiceImpl.create_job` generates the job
number with the Python default `index = 1` when the caller supplies no
index — the index is never computed from existing rows. -/
def createJobJobNoDefault (jobType companyCode : String) (yy mm : Nat) : String :=
  generateJobNumber jobType companyCode yy mm 1

/-- Modelled from the spec: `QuotationServiceImpl.generate_quotation_number`
appends the revision suffix `-R` plus the revision label to the job
number. -/
def generateQuotationNumber (jobNo revisionNo : String) : String :=
  jobNo ++ "-R" ++ revisionNo

/-- Modelled from the spec: `QuotationServiceImpl.create_quotation` uses
the Python default revision label `"00"` when none is supplied. -/
def generateQuotationNumberDefault (jobNo : String) : String :=
  generateQuotationNumber jobNo "00"

/-! ## `sendMessageToAI` configuration checks (aiService) -/

/-- The AI API configuration consulted by `sendMessageToAI`; a missing
key or endpoint is embedded as the empty string (the falsy cases of the
source checks). -/
structure AIApiConfig where
  apiKey : String
  endpoint : String
deriving DecidableEq

/-- A chat message. -/
structure ChatMsg where
  role : String
  content : String
deriving DecidableEq

/-- The distinguishable error classes of `sendMessageToAI`
(the thrown `Error` values, identified by throw site). -/
inductive AIServiceError where
  | missingApiKey
  | missingEndpoint
  | httpError (status : Nat)
  | unknownResponseFormat
deriving DecidableEq

/-- Embedding of `sendMessageToAI`: the two configuration checks run
before the `fetch` call; `fetchOutcome` stands for everything the network
round-trip and response-shape dispatch would produce, and the second
component counts how many `fetch` calls were issued. -/
def sendMessageToAI (cfg : AIApiConfig)
    (fetchOutcome : Except AIServiceError ChatMsg) :
    Except AIServiceError ChatMsg × Nat :=
  if cfg.apiKey = "" then (.error .missingApiKey, 0)
  else if cfg.endpoint = "" then (.error .missingEndpoint, 0)
  else (fetchOutcome, 1)

/-! ## QuotationSheet component state

Embedding of the `QuotationSheet` React component: `formData` plus the
`previousQuotationRef` triple become one explicit state record, and each
handler becomes a state-transition function.  A JavaScript field that may
hold either a string (from an input event) or a number (from a JSON
payload or an assignment like `sequence: i + 1`) is embedded as
`JSVal`. -/

/-- A JavaScript value that is either a string or a (finite) number. -/
inductive JSVal where
  | str : String → JSVal
  | num : ℚ → JSVal
deriving DecidableEq

/-- `parseFloat(v) || 0` on a string-or-number field (JavaScript
stringifies a number before parsing, which is the identity on its
value). -/
def JSVal.parseFloatOr0 : JSVal → ℚ
  | .num q => q
  | .str s => (jsParseFloat s).getD 0

/-- One row of the quotation items table. -/
structure SheetItem where
  sequence : JSVal
  project : String
  quantity : JSVal
  unit : String
  unitPrice : JSVal
  totalPrice : JSVal
deriving DecidableEq

/-- The `QuotationSheet` state: the `formData` fields the handlers touch,
plus the `previousQuotationRef.current` triple. -/
structure SheetState where
  quotationNumber : String
  quotationVersion : String
  clientName : String
  phoneNumber : String
  address : String
  projectName : String
  items : List SheetItem
  totalAmount : String
  prevQuotationNumber : String
  prevClientName : String
  prevProjectName : String
deriving DecidableEq

/-- The initial component state (the `useState` initializer restricted to
the embedded fields; `previousQuotationRef` starts as empty strings). -/
def initialSheetState : SheetState :=
  { quotationNumber := "INV-01-JCE-YY-NO-VER"
    quotationVersion := "1.0"
    clientName := ""
    phoneNumber := ""
    address := ""
    projectName := ""
    items := []
    totalAmount := ""
    prevQuotationNumber := ""
    prevClientName := ""
    prevProjectName := "" }

/-- An incoming quotation payload (the `data` prop), restricted to the
fields the versioning effect and the handlers read. -/
structure SheetPayload where
  quotationNumber : String
  currentDate : String
  clientName : String
  phoneNumber : String
  address : String
  projectName : String
  items : List SheetItem
  totalAmount : String
deriving DecidableEq

/-- The versioning step of the `useEffect`:
`(parseFloat(version) + 0.1).toFixed(1)`; an unparsable label propagates
as the string `"NaN"`, as in the source. -/
def nextVersionLabel (v : String) : String :=
  match jsParseFloat v with
  | some q => toFixed1 (q + 1/10)
  | none => "NaN"

/-- Embedding of the `useEffect` body that runs when a non-null `data`
prop arrives: decides new-vs-revised by comparing the payload
(quotation number, client name, project name) triple with the
previously stored triple under exact string equality, resets or
increments the revision label, merges the payload over the form state,
and updates the stored triple. -/
def loadQuotationData (st : SheetState) (d : SheetPayload) : SheetState :=
  let isNewQuotation : Bool :=
    d.quotationNumber != st.prevQuotationNumber ||
    d.clientName != st.prevClientName ||
    d.projectName != st.prevProjectName
  let newVersion :=
    if !isNewQuotation && st.quotationVersion != "" then
      nextVersionLabel st.quotationVersion
    else "1.0"
  { quotationNumber := d.quotationNumber
    quotationVersion := newVersion
    clientName := d.clientName
    phoneNumber := d.phoneNumber
    address := d.address
    projectName := d.projectName
    items := d.items
    totalAmount := d.totalAmount
    prevQuotationNumber := d.quotationNumber
    prevClientName := d.clientName
    prevProjectName := d.projectName }

/-- Iterated loads of the same payload (successive reloads). -/
def loadIter (st : SheetState) (d : SheetPayload) : Nat → SheetState
  | 0 => st
  | n + 1 => loadQuotationData (loadIter st d n) d

/-- The editable fields of an items row. -/
inductive ItemField where
  | sequence
  | project
  | quantity
  | unit
  | unitPrice
  | totalPrice
deriving DecidableEq

/-- `newItems[index] = { ...newItems[index], [field]: value }` — the raw
field write with the string arriving from the input event. -/
def setItemField (it : SheetItem) (f : ItemField) (v : String) : SheetItem :=
  match f with
  | .sequence => { it with sequence := .str v }
  | .project => { it with project := v }
  | .quantity => { it with quantity := .str v }
  | .unit => { it with unit := v }
  | .unitPrice => { it with unitPrice := .str v }
  | .totalPrice => { it with totalPrice := .str v }

/-- The conditional row-total recomputation of `handleItemChange`: only a
quantity or unit-price edit refreshes `totalPrice`, from the (updated)
row fields. -/
def recomputeRowTotal (it : SheetItem) (f : ItemField) : SheetItem :=
  if f = .quantity ∨ f = .unitPrice then
    { it with
        totalPrice := JSVal.str
          (toFixed2 (it.quantity.parseFloatOr0 * it.unitPrice.parseFloatOr0)) }
  else it

/-- In-place update of the row at an index (out-of-range indices leave
the list unchanged; the claims quantify over valid indices). -/
def updateAt : List SheetItem → Nat → (SheetItem → SheetItem) → List SheetItem
  | [], _, _ => []
  | x :: xs, 0, g => g x :: xs
  | x :: xs, n + 1, g => x :: updateAt xs n g

/-- `items.reduce((sum, item) => sum + (parseFloat(item.totalPrice) || 0), 0)` —
the grand-total accumulation shared by `handleItemChange` and
`updateTotalAmount`. -/
def sumRowTotals (items : List SheetItem) : ℚ :=
  items.foldl (fun s it => s + it.totalPrice.parseFloatOr0) 0

/-- The displayed total format: two decimals behind the currency marker. -/
def mopFormat (q : ℚ) : String := "MOP $ " ++ toFixed2 q

/-- Embedding of `handleItemChange`: write the field, conditionally
recompute the row total, then recompute and store the formatted grand
total. -/
def handleItemChange (st : SheetState) (i : Nat) (f : ItemField) (v : String) :
    SheetState :=
  let newItems := updateAt st.items i (fun it => recomputeRowTotal (setItemField it f v) f)
  { st with items := newItems, totalAmount := mopFormat (sumRowTotals newItems) }

/-- Embedding of `handleAddItem` followed by its `updateTotalAmount`
call: append the default row and recompute the formatted grand total. -/
def handleAddItem (st : SheetState) : SheetState :=
  let newItem : SheetItem :=
    { sequence := .num (st.items.length + 1)
      project := ""
      quantity := .num 1
      unit := "Lot"
      unitPrice := .str "0.00"
      totalPrice := .str "0.00" }
  let newItems := st.items ++ [newItem]
  { st with items := newItems, totalAmount := mopFormat (sumRowTotals newItems) }

/-- Row renumbering after a deletion: `sequence := position + 1`. -/
def renumberFrom (k : Nat) : List SheetItem → List SheetItem
  | [] => []
  | x :: xs => { x with sequence := .num (k : ℚ) } :: renumberFrom (k + 1) xs

/-- Embedding of `handleDeleteItem`: with at most one row the state is
untouched and only an alert fires (the Boolean component); otherwise the
indexed row is removed (`filter` on the index, which is `eraseIdx`), the
rows are renumbered consecutively from 1, and the formatted grand total
is recomputed. -/
def handleDeleteItem (st : SheetState) (i : Nat) : SheetState × Bool :=
  if st.items.length ≤ 1 then (st, true)
  else
    let reordered := renumberFrom 1 (st.items.eraseIdx i)
    ({ st with items := reordered, totalAmount := mopFormat (sumRowTotals reordered) },
      false)

/-! ## Markdown fence stripping and JSON parsing (`generateQuotation`)

`generateQuotation` trims the AI reply, removes every occurrence of the
marker ```json followed by whitespace, then every occurrence of ```
followed by whitespace (two global `replace` calls scanning the original
text left to right), and hands the remainder to `JSON.parse`. -/

/-- Global removal of a marker (head character plus tail) together with
the whitespace that follows each occurrence — one `replace(/marker\s*‍/g,
'')` call.  Scanning resumes after each removed occurrence, as the `/g`
flag does. -/
def stripFenceMarks (p : Char) (ps : List Char) : List Char → List Char
  | [] => []
  | c :: rest =>
    if (c :: rest).take (ps.length + 1) = p :: ps then
      stripFenceMarks p ps (((c :: rest).drop (ps.length + 1)).dropWhile isSpaceCh)
    else c :: stripFenceMarks p ps rest
termination_by l => l.length
decreasing_by
  · have h1 := List.Sublist.length_le
      (List.dropWhile_sublist (l := (c :: rest).drop (ps.length + 1)) isSpaceCh)
    simp only [List.length_drop, List.length_cons] at h1 ⊢
    omega
  · simp

/-- The tail of the ```json marker (after the leading backtick). -/
def jsonFenceTail : List Char := "``json".data

/-- The tail of the plain ``` marker (after the leading backtick). -/
def plainFenceTail : List Char := "``".data

/-- `jsonText.replace(/```json\s*‍/g, '')`. -/
def stripJsonFences (l : List Char) : List Char :=
  stripFenceMarks tickChar jsonFenceTail l

/-- `jsonText.replace(/```\s*‍/g, '')`. -/
def stripPlainFences (l : List Char) : List Char :=
  stripFenceMarks tickChar plainFenceTail l

/-- Trailing-whitespace removal. -/
def dropEndSpaces (l : List Char) : List Char :=
  (l.reverse.dropWhile isSpaceCh).reverse

/-- Embedding of `String.prototype.trim`. -/
def trimChars (l : List Char) : List Char :=
  dropEndSpaces (l.dropWhile isSpaceCh)

/-- The fence-stripping stage of `generateQuotation`: trim, remove
```json markers, remove ``` markers. -/
def extractJsonText (content : String) : String :=
  String.mk (stripPlainFences (stripJsonFences (trimChars content.data)))

/-- A JSON value (the result of `JSON.parse`); numbers are carried
exactly. -/
inductive Json where
  | null
  | bool (b : Bool)
  | num (q : ℚ)
  | str (s : String)
  | arr (elems : List Json)
  | obj (members : List (String × Json))

/-- Hexadecimal digit value. -/
def hexVal (c : Char) : Option Nat :=
  if 48 ≤ c.toNat ∧ c.toNat ≤ 57 then some (c.toNat - 48)
  else if 97 ≤ c.toNat ∧ c.toNat ≤ 102 then some (c.toNat - 87)
  else if 65 ≤ c.toNat ∧ c.toNat ≤ 70 then some (c.toNat - 55)
  else none

/-- JSON string escape characters (except `\u`). -/
def escChar (e : Char) : Option Char :=
  if e = '"' then some '"'
  else if e = '\\' then some '\\'
  else if e = '/' then some '/'
  else if e = 'b' then some (Char.ofNat 8)
  else if e = 'f' then some (Char.ofNat 12)
  else if e = 'n' then some '\n'
  else if e = 'r' then some (Char.ofNat 13)
  else if e = 't' then some '\t'
  else none

/-- Fraction part of a JSON number. -/
def parseJsonFrac : List Char → Option (ℚ × List Char)
  | '.' :: r =>
    let fds := r.takeWhile isDigitCh
    if fds.isEmpty then none
    else some ((digitsVal fds : ℚ) / (10 ^ fds.length : ℚ), r.dropWhile isDigitCh)
  | cs => some (0, cs)

/-- Exponent part of a JSON number, returned as a scale factor. -/
def parseJsonExp : List Char → Option (ℚ × List Char)
  | c :: r =>
    if c = 'e' ∨ c = 'E' then
      let sr : Bool × List Char := match r with
        | c2 :: r2 =>
          if c2 = '-' then (true, r2) else if c2 = '+' then (false, r2) else (false, r)
        | [] => (false, r)
      let eds := sr.2.takeWhile isDigitCh
      if eds.isEmpty then none
      else some ((if sr.1 then 1 / (10 ^ digitsVal eds : ℚ) else (10 ^ digitsVal eds : ℚ)),
        sr.2.dropWhile isDigitCh)
    else some (1, c :: r)
  | [] => some (1, [])

/-- A JSON number: optional minus, integer part without leading zeros,
optional fraction, optional exponent. -/
def parseJsonNumber (cs : List Char) : Option (ℚ × List Char) :=
  let sc : Bool × List Char := match cs with
    | c :: r => if c = '-' then (true, r) else (false, cs)
    | [] => (false, cs)
  let intDs := sc.2.takeWhile isDigitCh
  let cs2 := sc.2.dropWhile isDigitCh
  if intDs.isEmpty then none
  else if 1 < intDs.length ∧ intDs.head? = some '0' then none
  else match parseJsonFrac cs2 with
    | none => none
    | some (fv, cs3) =>
      match parseJsonExp cs3 with
      | none => none
      | some (scale, cs4) =>
        let mag := ((digitsVal intDs : ℚ) + fv) * scale
        some (if sc.1 then -mag else mag, cs4)

mutual

/-- One JSON value, after skipping leading whitespace (ECMA-404; the fuel
bounds the recursion depth). -/
def parseJsonValue : Nat → List Char → Option (Json × List Char)
  | 0, _ => none
  | fuel + 1, cs =>
    match cs.dropWhile isSpaceCh with
    | [] => none
    | c :: rest =>
      if c = '{' then
        match rest.dropWhile isSpaceCh with
        | '}' :: r2 => some (.obj [], r2)
        | _ =>
          match parseJsonMembers fuel rest with
          | some (ms, r2) => some (.obj ms, r2)
          | none => none
      else if c = '[' then
        match rest.dropWhile isSpaceCh with
        | ']' :: r2 => some (.arr [], r2)
        | _ =>
          match parseJsonElems fuel rest with
          | some (es, r2) => some (.arr es, r2)
          | none => none
      else if c = '"' then
        match parseJsonChars fuel rest with
        | some (chars, r2) => some (.str (String.mk chars), r2)
        | none => none
      else if c = 't' then
        match rest with
        | 'r' :: 'u' :: 'e' :: r2 => some (.bool true, r2)
        | _ => none
      else if c = 'f' then
        match rest with
        | 'a' :: 'l' :: 's' :: 'e' :: r2 => some (.bool false, r2)
        | _ => none
      else if c = 'n' then
        match rest with
        | 'u' :: 'l' :: 'l' :: r2 => some (.null, r2)
        | _ => none
      else
        match parseJsonNumber (c :: rest) with
        | some (q, r2) => some (.num q, r2)
        | none => none

/-- The members of a non-empty JSON object, up to and including the
closing brace. -/
def parseJsonMembers : Nat → List Char → Option (List (String × Json) × List Char)
  | 0, _ => none
  | fuel + 1, cs =>
    match cs.dropWhile isSpaceCh with
    | '"' :: rest =>
      match parseJsonChars fuel rest with
      | some (key, r1) =>
        match r1.dropWhile isSpaceCh with
        | ':' :: r2 =>
          match parseJsonValue fuel r2 with
          | some (v, r3) =>
            match r3.dropWhile isSpaceCh with
            | ',' :: r4 =>
              match parseJsonMembers fuel r4 with
              | some (ms, r5) => some ((String.mk key, v) :: ms, r5)
              | none => none
            | '}' :: r4 => some ([(String.mk key, v)], r4)
            | _ => none
          | none => none
        | _ => none
      | none => none
    | _ => none

/-- The elements of a non-empty JSON array, up to and including the
closing bracket. -/
def parseJsonElems : Nat → List Char → Option (List Json × List Char)
  | 0, _ => none
  | fuel + 1, cs =>
    match parseJsonValue fuel cs with
    | some (v, r1) =>
      match r1.dropWhile isSpaceCh with
      | ',' :: r2 =>
        match parseJsonElems fuel r2 with
        | some (es, r3) => some (v :: es, r3)
        | none => none
      | ']' :: r2 => some ([v], r2)
      | _ => none
    | none => none

/-- The body of a JSON string literal after the opening quote, up to and
including the closing quote; escapes are decoded, raw control characters
are rejected. -/
def parseJsonChars : Nat → List Char → Option (List Char × List Char)
  | 0, _ => none
  | fuel + 1, cs =>
    match cs with
    | [] => none
    | c :: rest =>
      if c = '"' then some ([], rest)
      else if c = '\\' then
        match rest with
        | e :: r2 =>
          if e = 'u' then
            match r2 with
            | h1 :: h2 :: h3 :: h4 :: r3 =>
              match hexVal h1, hexVal h2, hexVal h3, hexVal h4 with
              | some a, some b, some c4, some d =>
                match parseJsonChars fuel r3 with
                | some (chars, r4) =>
                  some (Char.ofNat (((a * 16 + b) * 16 + c4) * 16 + d) :: chars, r4)
                | none => none
              | _, _, _, _ => none
            | _ => none
          else
            match escChar e with
            | some ec =>
              match parseJsonChars fuel r2 with
              | some (chars, r3) => some (ec :: chars, r3)
              | none => none
            | none => none
        | [] => none
      else if c.toNat < 32 then none
      else
        match parseJsonChars fuel rest with
        | some (chars, r2) => some (c :: chars, r2)
        | none => none

end

/-- Embedding of `JSON.parse`: a single value surrounded by optional
insignificant whitespace.  The fuel `2·length + 2` bounds the recursion
depth (at least one character is consumed per two nested calls). -/
def jsonParseJS (s : String) : Option Json :=
  let cs := trimChars s.data
  match parseJsonValue (2 * cs.length + 2) cs with
  | some (v, rest) => if rest.dropWhile isSpaceCh = [] then some v else none
  | none => none

/-- The parse stage of `generateQuotation`: trim the AI reply content,
strip the markdown fence markers, and `JSON.parse` the result. -/
def parseQuotationReply (content : String) : Option Json :=
  jsonParseJS (extractJsonText content)

/-! ## `generateQuotation` validation (aiService)

The stage of `generateQuotation` after a successful `JSON.parse`:
required-field check, non-empty-items check, budget check, items-sum
consistency warning, and assembly of the default-filled payload.  A
string field that can be absent or empty is embedded as a string with
`""` for the falsy cases; the `items` field is `Option`-valued because
`!quotationData.items` is true only for an absent value (an empty array
is truthy and is caught by the later length check). -/

/-- The project information collected from the conversation. -/
structure ProjectInfo where
  companyName : String
  projectName : String
  budget : String
deriving DecidableEq

/-- One item of the AI-proposed quotation payload (the schema the prompt
requests: numeric `sequence`/`quantity`, string prices). -/
structure AIQuotationItem where
  sequence : Option ℚ
  itemName : String
  quantity : Option ℚ
  unit : String
  unitPrice : String
  totalPrice : String
deriving DecidableEq

/-- The AI-proposed quotation payload. -/
structure AIQuotationData where
  quotationNumber : String
  date : String
  companyName : String
  phoneNumber : String
  address : String
  projectName : String
  items : Option (List AIQuotationItem)
  totalAmount : String
  currency : String
deriving DecidableEq

/-- The distinguishable throw sites of the validation stage. -/
inductive QuotationGenError where
  | missingRequiredFields (fields : List String)
  | emptyItems
  | budgetExceeded (totalAmount budget : ℚ)
deriving DecidableEq

/-- `requiredFields.filter(field => !quotationData[field])`, in source
order. -/
def missingRequired (q : AIQuotationData) : List String :=
  (if q.companyName = "" then ["companyName"] else []) ++
  (if q.projectName = "" then ["projectName"] else []) ++
  (if q.items.isNone then ["items"] else []) ++
  (if q.totalAmount = "" then ["totalAmount"] else [])

/-- `parseFloat(s || 0)`: a falsy string parses as zero; `none` embeds
NaN. -/
def parseFalsyOr0 (s : String) : Option ℚ :=
  if s = "" then some 0 else jsParseFloat s

/-- `items.reduce((sum, item) => sum + parseFloat(item.totalPrice || 0), 0)`;
NaN (embedded as `none`) propagates through the sum. -/
def aiItemsSum (items : List AIQuotationItem) : Option ℚ :=
  items.foldl
    (fun acc it =>
      match acc, parseFalsyOr0 it.totalPrice with
      | some s, some v => some (s + v)
      | _, _ => none)
    (some 0)

/-- `MOP $ ` plus a `toFixed(2)` rendering (`NaN` when the parse failed). -/
def mopOf (o : Option ℚ) : String :=
  "MOP $ " ++ o.elim "NaN" toFixed2

/-- The final payload `generateQuotation` returns. -/
structure FinalQuotation where
  quotationNumber : String
  quotationVersion : String
  currentDate : String
  clientName : String
  phoneNumber : String
  address : String
  projectName : String
  items : List SheetItem
  totalAmount : String
  currency : String
deriving DecidableEq

/-- The per-item mapping of the final payload (`items.map` with the
index-based defaults; `x || d` replaces the falsy values `0` and absent
by the default). -/
def finalItemOfAI (idx : Nat) (it : AIQuotationItem) : SheetItem :=
  { sequence :=
      match it.sequence with
      | some s => if s = 0 then JSVal.num (idx + 1) else JSVal.num s
      | none => JSVal.num (idx + 1)
    project := it.itemName
    quantity :=
      match it.quantity with
      | some qn => if qn = 0 then JSVal.num 1 else JSVal.num qn
      | none => JSVal.num 1
    unit := if it.unit = "" then "Lot" else it.unit
    unitPrice := JSVal.str (mopOf (parseFalsyOr0 it.unitPrice))
    totalPrice := JSVal.str (mopOf (parseFalsyOr0 it.totalPrice)) }

/-- `items.map((item, index) => ...)`. -/
def finalItemsOfAI (idx : Nat) : List AIQuotationItem → List SheetItem
  | [] => []
  | it :: rest => finalItemOfAI idx it :: finalItemsOfAI (idx + 1) rest

/-- Embedding of the validation and assembly stage of
`generateQuotation` applied to the parsed payload.  `nowSuffix` and
`todayStr` stand for the `Date`-derived defaults of the quotation number
and date.  The Boolean component of a successful result records whether
the items-sum mismatch warning (`console.warn`) fired; the payload is
returned either way. -/
def generateQuotationValidate (pinfo : ProjectInfo) (q : AIQuotationData)
    (nowSuffix todayStr : String) :
    Except QuotationGenError (FinalQuotation × Bool) :=
  match q.items with
  | none => .error (.missingRequiredFields (missingRequired q))
  | some its =>
    if missingRequired q ≠ [] then .error (.missingRequiredFields (missingRequired q))
    else if its.length = 0 then .error .emptyItems
    else
      let budget := (jsParseFloat pinfo.budget).getD 0
      let totalAmount := (jsParseFloat q.totalAmount).getD 0
      if budget > 0 ∧ totalAmount > budget then
        .error (.budgetExceeded totalAmount budget)
      else
        let warned := match aiItemsSum its with
          | some s => decide (|s - totalAmount| > 1/100)
          | none => false
        .ok
          ({ quotationNumber :=
               if q.quotationNumber = "" then "INV-" ++ nowSuffix else q.quotationNumber
             quotationVersion := "1.0"
             currentDate := if q.date = "" then todayStr else q.date
             clientName := q.companyName
             phoneNumber := q.phoneNumber
             address := q.address
             projectName := q.projectName
             items := finalItemsOfAI 0 its
             totalAmount := mopOf (parseFalsyOr0 q.totalAmount)
             currency := if q.currency = "" then "MOP" else q.currency },
            warned)

/-! ## PDF export (`exportWithLibrary`)

The export function mutates the page, renders, and restores in a
`finally` block.  The page is embedded as an explicit state record: the
inline style of the quotation-sheet element, the inline `display` values
of the `.hide-in-pdf` elements, of the left chat panel and of the
download-button container, whether the table inputs are currently
swapped for text divs, whether the temporary style tag is in the
document, the number of `alert` calls, and the files saved so far. -/

/-- The inline style properties of the quotation-sheet element the
export path touches. -/
structure SheetDomStyle where
  position : String
  left : String
  top : String
  width : String
  maxWidth : String
  minHeight : String
  margin : String
  padding : String
  transform : String
  zIndex : String
  background : String
  boxSizing : String
  fontSize : String
  fontFamily : String
deriving DecidableEq

/-- The style values forced on the sheet element before rendering
(`fontFamily` is forced along with the thirteen saved properties). -/
def exportSheetStyle : SheetDomStyle :=
  { position := "fixed", left := "0", top := "0", width := "210mm"
    maxWidth := "210mm", minHeight := "297mm", margin := "0"
    padding := "12mm 15mm", transform := "none", zIndex := "9999"
    background := "white", boxSizing := "border-box", fontSize := "11pt"
    fontFamily :=
      "-apple-system, BlinkMacSystemFont, \"Segoe UI\", Roboto, \"Helvetica Neue\", Arial, sans-serif" }

/-- The page state the export path reads and writes. -/
structure PdfPageState where
  sheetExists : Bool
  sheetStyle : SheetDomStyle
  hideInPdfDisplays : List String
  leftPanelExists : Bool
  leftPanelDisplay : String
  downloadBtnExists : Bool
  downloadBtnDisplay : String
  inputsSwapped : Bool
  tempStyleInjected : Bool
  alertCount : Nat
  savedPdfFiles : List String
deriving DecidableEq

/-- The restore assignments of the `finally` block: the thirteen
properties captured in `originalStyle` are written back (`saved || ''`
equals the saved string value); `fontFamily` was never captured, so the
forced value stays. -/
def restoreSavedStyle (saved current : SheetDomStyle) : SheetDomStyle :=
  { position := saved.position, left := saved.left, top := saved.top
    width := saved.width, maxWidth := saved.maxWidth
    minHeight := saved.minHeight, margin := saved.margin
    padding := saved.padding, transform := saved.transform
    zIndex := saved.zIndex, background := saved.background
    boxSizing := saved.boxSizing, fontSize := saved.fontSize
    fontFamily := current.fontFamily }

/-- Embedding of `exportWithLibrary` as a page-state transformer.
`renderFails` selects whether the `html2canvas` rendering throws (the
failure mode the claim quantifies over); the first component is the
Boolean the function returns. -/
def exportWithLibrary (st : PdfPageState) (renderFails : Bool) (filename : String) :
    Bool × PdfPageState :=
  if !st.sheetExists then
    (false,
      { st with
          alertCount := st.alertCount + 1
          downloadBtnDisplay := if st.downloadBtnExists then "" else st.downloadBtnDisplay })
  else
    let saved := st.sheetStyle
    let lpHidden := st.leftPanelExists && st.leftPanelDisplay != "none"
    let lpSaved := if lpHidden then st.leftPanelDisplay else ""
    let during : PdfPageState :=
      { st with
          sheetStyle := exportSheetStyle
          hideInPdfDisplays := st.hideInPdfDisplays.map (fun _ => "none")
          leftPanelDisplay := if lpHidden then "none" else st.leftPanelDisplay
          downloadBtnDisplay := if st.downloadBtnExists then "none" else st.downloadBtnDisplay
          inputsSwapped := true
          tempStyleInjected := true }
    let afterRender : PdfPageState :=
      if renderFails then { during with alertCount := during.alertCount + 1 }
      else
        { during with
            tempStyleInjected := false
            savedPdfFiles := during.savedPdfFiles ++ [filename] }
    let restored : PdfPageState :=
      { afterRender with
          tempStyleInjected := false
          inputsSwapped := false
          sheetStyle := restoreSavedStyle saved afterRender.sheetStyle
          hideInPdfDisplays := st.hideInPdfDisplays.map (fun d => if d = "none" then "none" else d)
          leftPanelDisplay := if st.leftPanelExists then lpSaved else afterRender.leftPanelDisplay
          downloadBtnDisplay := if st.downloadBtnExists then "" else afterRender.downloadBtnDisplay }
    (!renderFails, restored)

/-- The total the spec prescribes: the sum over all rows of quantity
times unit price (stated from the spec sentence, for comparison with the
total the code computes). -/
def specItemsTotal (items : List SheetItem) : ℚ :=
  items.foldl (fun s it => s + it.quantity.parseFloatOr0 * it.unitPrice.parseFloatOr0) 0

/-! ## Concrete exemplar inputs for the witnesses and counterexamples -/

/-- A one-decimal revision label holding `t` tenths (`tenthLabel 10` is
`"1.0"`, `tenthLabel 11` is `"1.1"`, and so on). -/
def tenthLabel (t : Nat) : String := toFixed1 ((t : ℚ) / 10)

/-- An example payload: client ACME, project Roof. -/
def examplePayloadRoof : SheetPayload :=
  { quotationNumber := "INV-000001", currentDate := "2025/01/01"
    clientName := "ACME", phoneNumber := "", address := ""
    projectName := "Roof", items := [], totalAmount := "" }

/-- The same payload with the project changed to Wall. -/
def examplePayloadWall : SheetPayload :=
  { examplePayloadRoof with projectName := "Wall" }

/-- An items row as a generated payload delivers it: the `totalPrice`
string still carries the currency marker. -/
def exampleRowPrefixed : SheetItem :=
  { sequence := JSVal.num 1, project := "demolition", quantity := JSVal.num 2
    unit := "Lot", unitPrice := JSVal.str "100", totalPrice := JSVal.str "MOP $ 200.00" }

/-- A sheet state holding one prefixed row. -/
def exampleStatePrefixed : SheetState :=
  { initialSheetState with
      items := [exampleRowPrefixed]
      totalAmount := "MOP $ 200.00" }

/-- A consistent bare row: quantity 2 at 100. -/
def exampleRow1 : SheetItem :=
  { sequence := JSVal.num 1, project := "demolition", quantity := JSVal.str "2"
    unit := "Lot", unitPrice := JSVal.str "100", totalPrice := JSVal.str "200.00" }

/-- A consistent bare row: quantity 1 at 50. -/
def exampleRow2 : SheetItem :=
  { sequence := JSVal.num 2, project := "survey", quantity := JSVal.str "1"
    unit := "Lot", unitPrice := JSVal.str "50", totalPrice := JSVal.str "50.00" }

/-- The two-row sheet state of the example scenario, totalling 250. -/
def exampleStateBare : SheetState :=
  { initialSheetState with
      items := [exampleRow1, exampleRow2]
      totalAmount := "MOP $ 250.00" }

/-- Project information with the budget string `"0"`. -/
def exampleProjectInfoB0 : ProjectInfo :=
  { companyName := "ACME", projectName := "Roof", budget := "0" }

/-- Project information with the budget string `"1000"`. -/
def exampleProjectInfoB1000 : ProjectInfo :=
  { companyName := "ACME", projectName := "Roof", budget := "1000" }

/-- An AI payload item priced by the given total string. -/
def exampleAIItem (total : String) : AIQuotationItem :=
  { sequence := some 1, itemName := "Design Services", quantity := some 1
    unit := "Lot", unitPrice := total, totalPrice := total }

/-- An AI quotation payload with one item; `itemTotal` is the single
item total and `total` the claimed overall total. -/
def exampleAIQuotation (total itemTotal : String) : AIQuotationData :=
  { quotationNumber := "INV-01-0001", date := "2025/01/01"
    companyName := "ACME", phoneNumber := "123", address := "Macau"
    projectName := "Roof", items := some [exampleAIItem itemTotal]
    totalAmount := total, currency := "MOP" }

/-- A page state with a serif font, an element hidden by `display`
values `""` and `"flex"`, and a visible left panel. -/
def examplePageState : PdfPageState :=
  { sheetExists := true
    sheetStyle :=
      { position := "", left := "", top := "", width := "", maxWidth := ""
        minHeight := "", margin := "", padding := "", transform := ""
        zIndex := "", background := "", boxSizing := "", fontSize := ""
        fontFamily := "serif" }
    hideInPdfDisplays := ["", "flex"]
    leftPanelExists := true
    leftPanelDisplay := ""
    downloadBtnExists := true
    downloadBtnDisplay := ""
    inputsSwapped := false
    tempStyleInjected := false
    alertCount := 0
    savedPdfFiles := [] }

/-! ## Digit-string lemmas -/

theorem dchar_toNat {d : Nat} (hd : d < 10) : (dchar d).toNat = 48 + d := by
  interval_cases d <;> decide

theorem isDigitCh_dchar {d : Nat} (hd : d < 10) : isDigitCh (dchar d) = true := by
  interval_cases d <;> decide

theorem natToCharsAux_digits (fuel : Nat) :
    ∀ n, ∀ c ∈ natToCharsAux fuel n, isDigitCh c = true := by
  induction fuel with
  | zero => intro n c hc; simp [natToCharsAux] at hc
  | succ fuel ih =>
    intro n c hc
    unfold natToCharsAux at hc
    split at hc
    · simp at hc
    · rw [List.mem_append] at hc
      rcases hc with hc | hc
      · exact ih _ c hc
      · simp only [List.mem_singleton] at hc
        subst hc
        exact isDigitCh_dchar (Nat.mod_lt _ (by norm_num))

theorem natToChars_digits (n : Nat) : ∀ c ∈ natToChars n, isDigitCh c = true := by
  intro c hc
  unfold natToChars at hc
  split at hc
  · simp at hc
    subst hc
    decide
  · exact natToCharsAux_digits _ _ c hc

theorem natToChars_ne_nil (n : Nat) : natToChars n ≠ [] := by
  unfold natToChars
  split
  · simp
  · rename_i hn
    unfold natToCharsAux
    rw [if_neg hn]
    simp

/-- The digit accumulation of `parseFloat` inverts the decimal
rendering (positive case, with enough fuel). -/
theorem natToCharsAux_zero (fuel : Nat) : natToCharsAux fuel 0 = [] := by
  cases fuel <;> simp [natToCharsAux]

theorem foldl_natToCharsAux (fuel : Nat) :
    ∀ n a, 0 < n → n ≤ fuel →
      (natToCharsAux fuel n).foldl (fun a c => 10 * a + (c.toNat - 48)) a =
        a * 10 ^ (natToCharsAux fuel n).length + n := by
  induction fuel with
  | zero => intro n a hn hf; omega
  | succ fuel ih =>
    intro n a hn hf
    unfold natToCharsAux
    rw [if_neg (by omega)]
    rw [List.foldl_append, List.length_append]
    simp only [List.foldl_cons, List.foldl_nil, List.length_cons, List.length_nil]
    rw [dchar_toNat (Nat.mod_lt _ (by norm_num)), Nat.add_sub_cancel_left]
    by_cases h10 : n / 10 = 0
    · rw [h10, natToCharsAux_zero]
      simp only [List.foldl_nil, List.length_nil, Nat.zero_add, pow_one]
      omega
    · have hle : n / 10 ≤ fuel := by omega
      rw [ih (n / 10) a (by omega) hle]
      have hdiv : 10 * (n / 10) + n % 10 = n := by omega
      calc 10 * (a * 10 ^ (natToCharsAux fuel (n / 10)).length + n / 10) + n % 10
          = a * 10 ^ ((natToCharsAux fuel (n / 10)).length + (0 + 1))
              + (10 * (n / 10) + n % 10) := by ring
        _ = a * 10 ^ ((natToCharsAux fuel (n / 10)).length + (0 + 1)) + n := by
              rw [hdiv]

theorem digitsVal_natToChars (n : Nat) : digitsVal (natToChars n) = n := by
  unfold natToChars
  split
  · subst n; decide
  · unfold digitsVal
    rw [foldl_natToCharsAux (n + 1) n 0 (by omega) (by omega)]
    simp

theorem takeWhile_run {p : Char → Bool} (xs : List Char) (y : Char) (ys : List Char)
    (hxs : ∀ c ∈ xs, p c = true) (hy : p y = false) :
    (xs ++ y :: ys).takeWhile p = xs := by
  induction xs with
  | nil => simp [List.takeWhile, hy]
  | cons x xs ih =>
    simp [List.takeWhile_cons, hxs x (by simp), ih (fun c hc => hxs c (by simp [hc]))]

theorem dropWhile_run {p : Char → Bool} (xs : List Char) (y : Char) (ys : List Char)
    (hxs : ∀ c ∈ xs, p c = true) (hy : p y = false) :
    (xs ++ y :: ys).dropWhile p = y :: ys := by
  induction xs with
  | nil => simp [List.dropWhile, hy]
  | cons x xs ih =>
    simp only [List.cons_append, List.dropWhile_cons, hxs x (by simp)]
    exact ih (fun c hc => hxs c (by simp [hc]))

theorem takeWhile_all {p : Char → Bool} (xs : List Char)
    (hxs : ∀ c ∈ xs, p c = true) : xs.takeWhile p = xs := by
  induction xs with
  | nil => rfl
  | cons x xs ih =>
    simp [List.takeWhile_cons, hxs x (by simp), ih (fun c hc => hxs c (by simp [hc]))]

theorem dropWhile_all {p : Char → Bool} (xs : List Char)
    (hxs : ∀ c ∈ xs, p c = true) : xs.dropWhile p = [] := by
  induction xs with
  | nil => rfl
  | cons x xs ih =>
    simp only [List.dropWhile_cons, hxs x (by simp)]
    exact ih (fun c hc => hxs c (by simp [hc]))

theorem isSpaceCh_of_digit {c : Char} (h : isDigitCh c = true) : isSpaceCh c = false := by
  unfold isDigitCh at h
  unfold isSpaceCh
  simp only [Bool.and_eq_true, decide_eq_true_eq] at h
  simp only [Bool.or_eq_false_iff, decide_eq_false_iff_not]
  omega

theorem digit_ne_minus {c : Char} (h : isDigitCh c = true) : c ≠ '-' := by
  intro hc
  subst hc
  simp [isDigitCh] at h

theorem digit_ne_plus {c : Char} (h : isDigitCh c = true) : c ≠ '+' := by
  intro hc
  subst hc
  simp [isDigitCh] at h

/-- Parsing a rendered decimal `a . d₁ … dₖ` recovers the exact rational. -/
theorem jsParseFloat_decimal (a : Nat) (frac : List Char)
    (hfrac : ∀ c ∈ frac, isDigitCh c = true) :
    jsParseFloat (String.mk (natToChars a ++ '.' :: frac)) =
      some ((a : ℚ) + (digitsVal frac : ℚ) / (10 ^ frac.length : ℚ)) := by
  have hall := natToChars_digits a
  have hne := natToChars_ne_nil a
  obtain ⟨c0, cs0, hc0⟩ : ∃ c0 cs0, natToChars a = c0 :: cs0 := by
    cases h : natToChars a with
    | nil => exact absurd h hne
    | cons x xs => exact ⟨x, xs, rfl⟩
  have hc0digit : isDigitCh c0 = true := by
    apply hall; rw [hc0]; simp
  unfold jsParseFloat
  rw [hc0]
  have hdrop : ((c0 :: cs0 ++ '.' :: frac).dropWhile isSpaceCh) = c0 :: (cs0 ++ '.' :: frac) := by
    simp [List.dropWhile_cons, isSpaceCh_of_digit hc0digit]
  simp only [List.cons_append] at hdrop ⊢
  rw [hdrop]
  simp only [parseSigned]
  rw [if_neg (digit_ne_minus hc0digit), if_neg (digit_ne_plus hc0digit)]
  unfold parseMantissaExp parseUnsigned
  have htake : ((c0 :: (cs0 ++ '.' :: frac)).takeWhile isDigitCh) = c0 :: cs0 := by
    have := takeWhile_run (p := isDigitCh) (c0 :: cs0) '.' frac
      (by rw [← hc0]; exact hall) (by decide)
    simpa using this
  have hdropd : ((c0 :: (cs0 ++ '.' :: frac)).dropWhile isDigitCh) = '.' :: frac := by
    have := dropWhile_run (p := isDigitCh) (c0 :: cs0) '.' frac
      (by rw [← hc0]; exact hall) (by decide)
    simpa using this
  rw [htake, hdropd]
  simp only [takeWhile_all frac hfrac, dropWhile_all frac hfrac]
  have : ((c0 :: cs0).isEmpty && ([] : List Char).isEmpty) = false := by simp [List.isEmpty]
  rw [if_neg (by simp [List.isEmpty])]
  unfold applyExp
  rw [← hc0]
  rw [digitsVal_natToChars]

theorem string_mk_append (a b : List Char) :
    String.mk a ++ String.mk b = String.mk (a ++ b) := rfl

theorem floor_nat_add_half (K : Nat) : ⌊(K : ℚ) + 1/2⌋ = K := by
  rw [Int.floor_eq_iff]
  constructor
  · push_cast; linarith
  · push_cast; linarith

/-- Character-level form of `toFixed(2)` on an exact non-negative
hundredth. -/
theorem toFixed2_centi (K : Nat) :
    toFixed2 ((K : ℚ) / 100) =
      String.mk (natToChars (K / 100) ++ '.' :: [dchar (K / 10 % 10), dchar (K % 10)]) := by
  unfold toFixed2
  have hnonneg : (0 : ℚ) ≤ (K : ℚ) / 100 := by positivity
  rw [if_neg (not_lt.mpr hnonneg), abs_of_nonneg hnonneg]
  have hmul : (K : ℚ) / 100 * 100 = (K : ℚ) := by field_simp
  rw [hmul, floor_nat_add_half]
  simp only [Int.toNat_natCast]
  unfold natStr
  rw [show ("" : String) = String.mk [] from rfl,
    show ("." : String) = String.mk ['.'] from rfl,
    string_mk_append, string_mk_append, string_mk_append]
  simp

/-- Character-level form of `toFixed(1)` on an exact non-negative tenth. -/
theorem toFixed1_tenth (T : Nat) :
    toFixed1 ((T : ℚ) / 10) =
      String.mk (natToChars (T / 10) ++ '.' :: [dchar (T % 10)]) := by
  unfold toFixed1
  have hnonneg : (0 : ℚ) ≤ (T : ℚ) / 10 := by positivity
  rw [if_neg (not_lt.mpr hnonneg), abs_of_nonneg hnonneg]
  have hmul : (T : ℚ) / 10 * 10 = (T : ℚ) := by field_simp
  rw [hmul, floor_nat_add_half]
  simp only [Int.toNat_natCast]
  unfold natStr
  rw [show ("" : String) = String.mk [] from rfl,
    show ("." : String) = String.mk ['.'] from rfl,
    string_mk_append, string_mk_append, string_mk_append]
  simp

/-- `parseFloat` recovers the exact value from a `toFixed(2)` rendering of
a non-negative hundredth. -/
theorem jsParseFloat_toFixed2 (K : Nat) :
    jsParseFloat (toFixed2 ((K : ℚ) / 100)) = some ((K : ℚ) / 100) := by
  rw [toFixed2_centi]
  rw [jsParseFloat_decimal (K / 100) [dchar (K / 10 % 10), dchar (K % 10)]
    (by
      intro c hc
      simp only [List.mem_cons, List.not_mem_nil, or_false] at hc
      rcases hc with rfl | rfl
      · exact isDigitCh_dchar (Nat.mod_lt _ (by norm_num))
      · exact isDigitCh_dchar (Nat.mod_lt _ (by norm_num)))]
  congr 1
  have hd1 : (dchar (K / 10 % 10)).toNat = 48 + K / 10 % 10 :=
    dchar_toNat (Nat.mod_lt _ (by norm_num))
  have hd2 : (dchar (K % 10)).toNat = 48 + K % 10 :=
    dchar_toNat (Nat.mod_lt _ (by norm_num))
  simp only [digitsVal, List.foldl, hd1, hd2, List.length_cons, List.length_nil]
  have harith : 100 * (K / 100) + (10 * (K / 10 % 10) + K % 10) = K := by omega
  have hq : (K : ℚ) =
      100 * ((K / 100 : ℕ) : ℚ) + (10 * ((K / 10 % 10 : ℕ) : ℚ) + ((K % 10 : ℕ) : ℚ)) := by
    exact_mod_cast harith.symm
  field_simp
  linarith [hq]

/-- `parseFloat` recovers the exact value from a `toFixed(1)` rendering of
a non-negative tenth. -/
theorem jsParseFloat_toFixed1 (T : Nat) :
    jsParseFloat (toFixed1 ((T : ℚ) / 10)) = some ((T : ℚ) / 10) := by
  rw [toFixed1_tenth]
  rw [jsParseFloat_decimal (T / 10) [dchar (T % 10)]
    (by
      intro c hc
      simp only [List.mem_cons, List.not_mem_nil, or_false] at hc
      rcases hc with rfl
      exact isDigitCh_dchar (Nat.mod_lt _ (by norm_num)))]
  congr 1
  have hd1 : (dchar (T % 10)).toNat = 48 + T % 10 :=
    dchar_toNat (Nat.mod_lt _ (by norm_num))
  simp only [digitsVal, List.foldl, hd1, List.length_cons, List.length_nil]
  have harith : 10 * (T / 10) + T % 10 = T := by omega
  have hq : (T : ℚ) = 10 * ((T / 10 : ℕ) : ℚ) + ((T % 10 : ℕ) : ℚ) := by
    exact_mod_cast harith.symm
  field_simp
  linarith [hq]

/-! ## Revision-versioning lemmas (QuotationSheet `useEffect`) -/

theorem tenthLabel_ne_empty (t : Nat) : tenthLabel t ≠ "" := by
  unfold tenthLabel
  rw [toFixed1_tenth]
  intro h
  have h2 : natToChars (t / 10) ++ '.' :: [dchar (t % 10)] = [] := congrArg String.data h
  simp at h2

theorem tenthLabel_ten : tenthLabel 10 = "1.0" := by
  unfold tenthLabel
  rw [toFixed1_tenth]
  rfl

theorem tenthLabel_eleven : tenthLabel 11 = "1.1" := by
  unfold tenthLabel
  rw [toFixed1_tenth]
  rfl

theorem tenthLabel_twelve : tenthLabel 12 = "1.2" := by
  unfold tenthLabel
  rw [toFixed1_tenth]
  rfl

theorem nextVersionLabel_tenthLabel (t : Nat) :
    nextVersionLabel (tenthLabel t) = tenthLabel (t + 1) := by
  have harg : ((t : ℚ) / 10 + 1/10 : ℚ) = ((t + 1 : Nat) : ℚ) / 10 := by
    push_cast
    ring
  unfold nextVersionLabel tenthLabel
  rw [jsParseFloat_toFixed1]
  show toFixed1 ((t : ℚ) / 10 + 1/10) = toFixed1 (((t + 1 : Nat) : ℚ) / 10)
  rw [harg]

/-- A differing triple resets the revision label. -/
theorem loadQuotationData_reset (st : SheetState) (d : SheetPayload)
    (h : d.quotationNumber ≠ st.prevQuotationNumber ∨ d.clientName ≠ st.prevClientName ∨
      d.projectName ≠ st.prevProjectName) :
    (loadQuotationData st d).quotationVersion = "1.0" := by
  unfold loadQuotationData
  rcases h with h | h | h <;> simp [h]

/-- A matching triple increments the revision label by one tenth. -/
theorem loadQuotationData_increment (st : SheetState) (d : SheetPayload) (t : Nat)
    (h1 : d.quotationNumber = st.prevQuotationNumber)
    (h2 : d.clientName = st.prevClientName)
    (h3 : d.projectName = st.prevProjectName)
    (hv : st.quotationVersion = tenthLabel t) :
    (loadQuotationData st d).quotationVersion = tenthLabel (t + 1) := by
  unfold loadQuotationData
  simp [h1, h2, h3, hv, tenthLabel_ne_empty t, nextVersionLabel_tenthLabel]

theorem loadQuotationData_prev (st : SheetState) (d : SheetPayload) :
    (loadQuotationData st d).prevQuotationNumber = d.quotationNumber ∧
    (loadQuotationData st d).prevClientName = d.clientName ∧
    (loadQuotationData st d).prevProjectName = d.projectName := by
  unfold loadQuotationData
  exact ⟨rfl, rfl, rfl⟩

/-! ## Claim C1 -/

/-- C1: when a payload is loaded into the quotation sheet, a
(quotation number, client name, project name) triple that differs from
the previously stored triple under exact (case-sensitive) string
equality resets the revision label to "1.0"; a triple matching in all
three components increments the label by exactly one tenth, rendered to
one decimal place; hence every chain of successive same-triple reloads
runs through the labels `tenthLabel (10 + k)`, which are "1.0", "1.1",
"1.2", and so on. -/
theorem c1_revision_versioning :
    (∀ (st : SheetState) (d : SheetPayload),
        (d.quotationNumber ≠ st.prevQuotationNumber ∨ d.clientName ≠ st.prevClientName ∨
          d.projectName ≠ st.prevProjectName) →
        (loadQuotationData st d).quotationVersion = "1.0") ∧
    (∀ (st : SheetState) (d : SheetPayload) (t : Nat),
        d.quotationNumber = st.prevQuotationNumber → d.clientName = st.prevClientName →
        d.projectName = st.prevProjectName → st.quotationVersion = tenthLabel t →
        (loadQuotationData st d).quotationVersion = tenthLabel (t + 1)) ∧
    (∀ (st : SheetState) (d : SheetPayload),
        (d.quotationNumber ≠ st.prevQuotationNumber ∨ d.clientName ≠ st.prevClientName ∨
          d.projectName ≠ st.prevProjectName) →
        ∀ k : Nat, (loadIter st d (k + 1)).quotationVersion = tenthLabel (10 + k)) ∧
    tenthLabel 10 = "1.0" ∧ tenthLabel 11 = "1.1" ∧ tenthLabel 12 = "1.2" := by
  refine ⟨loadQuotationData_reset, loadQuotationData_increment, ?_,
    tenthLabel_ten, tenthLabel_eleven, tenthLabel_twelve⟩
  intro st d h k
  induction k with
  | zero =>
    show (loadQuotationData st d).quotationVersion = tenthLabel 10
    rw [loadQuotationData_reset st d h, tenthLabel_ten]
  | succ k ih =>
    show (loadQuotationData (loadIter st d (k + 1)) d).quotationVersion = tenthLabel (10 + (k + 1))
    have hprev := loadQuotationData_prev (loadIter st d k) d
    exact loadQuotationData_increment (loadIter st d (k + 1)) d (10 + k)
      hprev.1.symm hprev.2.1.symm hprev.2.2.symm ih

/-- Witness for C1 at the example scenario: first load of the ACME/Roof
payload yields "1.0", two same-triple reloads yield "1.1" then "1.2",
and switching the project to Wall resets to "1.0". -/
theorem c1_revision_versioning_witness :
    (loadQuotationData initialSheetState examplePayloadRoof).quotationVersion = "1.0" ∧
    (loadIter initialSheetState examplePayloadRoof 2).quotationVersion = "1.1" ∧
    (loadIter initialSheetState examplePayloadRoof 3).quotationVersion = "1.2" ∧
    (loadQuotationData (loadIter initialSheetState examplePayloadRoof 3)
        examplePayloadWall).quotationVersion = "1.0" := by
  refine ⟨?_, ?_, ?_, ?_⟩
  · exact c1_revision_versioning.1 initialSheetState examplePayloadRoof (Or.inl (by decide))
  · have h := c1_revision_versioning.2.2.1 initialSheetState examplePayloadRoof
      (Or.inl (by decide)) 1
    rw [h]
    exact c1_revision_versioning.2.2.2.2.1
  · have h := c1_revision_versioning.2.2.1 initialSheetState examplePayloadRoof
      (Or.inl (by decide)) 2
    rw [h]
    exact c1_revision_versioning.2.2.2.2.2
  · exact c1_revision_versioning.1 (loadIter initialSheetState examplePayloadRoof 3)
      examplePayloadWall (Or.inr (Or.inr (by decide)))

/-! ## Claim C9 -/

theorem renumberFrom_length (k : Nat) (l : List SheetItem) :
    (renumberFrom k l).length = l.length := by
  induction l generalizing k with
  | nil => rfl
  | cons x xs ih => simp [renumberFrom, ih]

theorem renumberFrom_get (l : List SheetItem) :
    ∀ (k j : Nat) (hj : j < (renumberFrom k l).length) (hj2 : j < l.length),
      (renumberFrom k l).get ⟨j, hj⟩ =
        { l.get ⟨j, hj2⟩ with sequence := JSVal.num ((k + j : Nat) : ℚ) } := by
  induction l with
  | nil => intro k j hj hj2; simp at hj2
  | cons x xs ih =>
    intro k j hj hj2
    cases j with
    | zero => simp [renumberFrom]
    | succ j =>
      have hstep : (renumberFrom k (x :: xs)).get ⟨j + 1, hj⟩ =
          (renumberFrom (k + 1) xs).get ⟨j, by
            have := hj
            simp only [renumberFrom, List.length_cons] at this
            omega⟩ := rfl
      rw [hstep, ih (k + 1) j _ (by simpa using hj2)]
      have harith : k + 1 + j = k + (j + 1) := by omega
      rw [harith]
      rfl

/-- C9: the delete operation never empties the items list — with exactly
one row (or none) the state is returned unchanged and only the alert
fires; with `n ≥ 2` rows and a valid index, exactly that row is removed
(`eraseIdx`), the remaining `n - 1 ≥ 1` rows keep their other fields in
order, and their sequence fields become the consecutive values `1`
through `n - 1`. -/
theorem c9_delete_item :
    (∀ (st : SheetState) (i : Nat), st.items.length ≤ 1 →
        handleDeleteItem st i = (st, true)) ∧
    (∀ (st : SheetState) (i : Nat), 2 ≤ st.items.length → i < st.items.length →
        (handleDeleteItem st i).2 = false ∧
        ((handleDeleteItem st i).1).items = renumberFrom 1 (st.items.eraseIdx i) ∧
        ((handleDeleteItem st i).1).items.length = st.items.length - 1 ∧
        1 ≤ ((handleDeleteItem st i).1).items.length ∧
        ∀ (j : Nat) (hj : j < ((handleDeleteItem st i).1).items.length),
          ∃ hj2 : j < (st.items.eraseIdx i).length,
            (((handleDeleteItem st i).1).items.get ⟨j, hj⟩) =
              { (st.items.eraseIdx i).get ⟨j, hj2⟩ with
                  sequence := JSVal.num ((j + 1 : Nat) : ℚ) }) := by
  constructor
  · intro st i h
    unfold handleDeleteItem
    rw [if_pos h]
  · intro st i h2 hi
    have hbranch : handleDeleteItem st i =
        ({ st with
            items := renumberFrom 1 (st.items.eraseIdx i)
            totalAmount := mopFormat (sumRowTotals (renumberFrom 1 (st.items.eraseIdx i))) },
          false) := by
      unfold handleDeleteItem
      rw [if_neg (by omega)]
    rw [hbranch]
    have hlen : (st.items.eraseIdx i).length = st.items.length - 1 :=
      List.length_eraseIdx_of_lt hi
    refine ⟨rfl, rfl, ?_, ?_, ?_⟩
    · rw [renumberFrom_length, hlen]
    · rw [renumberFrom_length, hlen]; omega
    · intro j hj
      have hj2 : j < (st.items.eraseIdx i).length := by
        rw [renumberFrom_length] at hj
        exact hj
      refine ⟨hj2, ?_⟩
      have := renumberFrom_get (st.items.eraseIdx i) 1 j hj hj2
      rw [this]
      have : (1 + j : Nat) = j + 1 := by omega
      rw [this]

/-- Witness for C9: deleting from the one-row example state is a no-op
with an alert; deleting row 0 of the two-row example state leaves the
second row, renumbered to sequence 1. -/
theorem c9_delete_item_witness :
    handleDeleteItem exampleStatePrefixed 0 = (exampleStatePrefixed, true) ∧
    (handleDeleteItem exampleStateBare 0).2 = false ∧
    ((handleDeleteItem exampleStateBare 0).1).items =
      renumberFrom 1 (exampleStateBare.items.eraseIdx 0) ∧
    ((handleDeleteItem exampleStateBare 0).1).items.length = 1 :=
  ⟨c9_delete_item.1 exampleStatePrefixed 0 (by decide),
    (c9_delete_item.2 exampleStateBare 0 (by decide) (by decide)).1,
    (c9_delete_item.2 exampleStateBare 0 (by decide) (by decide)).2.1,
    (c9_delete_item.2 exampleStateBare 0 (by decide) (by decide)).2.2.1⟩

/-! ## Claim C7 -/

/-- C7 (spec-modelled): job numbers have the shape
`TYPE-CODE`-`COMPANY-CODE`-`YY`-`MM`-`INDEX` with the index supplied by
the caller and the Python default `1` substituted when omitted; a
quotation number is the job number with `-R` plus the revision label
appended, so revision "00" on job number `X` yields `X-R00`. -/
theorem c7_number_generation :
    (∀ (jt cc : String) (yy mm index : Nat),
        generateJobNumber jt cc yy mm index =
          jobTypeCode jt ++ "-" ++ cc ++ "-" ++ pad2 yy ++ "-" ++ pad2 mm
            ++ "-" ++ natStr index) ∧
    (∀ (jt cc : String) (yy mm : Nat),
        createJobJobNoDefault jt cc yy mm = generateJobNumber jt cc yy mm 1) ∧
    (∀ jobNo revisionNo : String,
        generateQuotationNumber jobNo revisionNo = jobNo ++ "-R" ++ revisionNo) ∧
    (∀ jobNo : String, generateQuotationNumberDefault jobNo = jobNo ++ "-R00") ∧
    generateJobNumber "DESIGN" "15" 25 11 1 = "JCP-15-25-11-1" ∧
    generateJobNumber "INSPECTION" "15" 25 1 2 = "JICP-15-25-01-2" ∧
    generateQuotationNumber "JCP-15-25-11-1" "00" = "JCP-15-25-11-1-R00" := by
  refine ⟨fun jt cc yy mm index => rfl, fun jt cc yy mm => rfl,
    fun jobNo revisionNo => ?_, fun jobNo => ?_, by decide, by decide, by decide⟩
  · rfl
  · show jobNo ++ "-R" ++ "00" = jobNo ++ "-R00"
    rw [String.append_assoc]
    rfl

/-! ## Claim C8 -/

/-- C8: with a missing API key or a missing endpoint, `sendMessageToAI`
stops at the corresponding configuration error and the `fetch` call
count is zero — the HTTP request is never issued. -/
theorem c8_config_before_fetch :
    ∀ (cfg : AIApiConfig) (fetchOutcome : Except AIServiceError ChatMsg),
      (cfg.apiKey = "" ∨ cfg.endpoint = "") →
      (sendMessageToAI cfg fetchOutcome).2 = 0 ∧
      (sendMessageToAI cfg fetchOutcome).1 =
        .error (if cfg.apiKey = "" then .missingApiKey else .missingEndpoint) := by
  intro cfg fetchOutcome h
  unfold sendMessageToAI
  by_cases hk : cfg.apiKey = ""
  · simp [hk]
  · have he : cfg.endpoint = "" := h.resolve_left hk
    simp [hk, he]

/-- Witness for C8: an empty API key (with a set endpoint) and an empty
endpoint (with a set key) both error out with zero fetches. -/
theorem c8_config_before_fetch_witness :
    ((sendMessageToAI ⟨"", "https://api.example/v1"⟩ (.error (.httpError 500))).2 = 0 ∧
      (sendMessageToAI ⟨"", "https://api.example/v1"⟩ (.error (.httpError 500))).1 =
        .error (if ("" : String) = "" then .missingApiKey else .missingEndpoint)) ∧
    ((sendMessageToAI ⟨"sk-test", ""⟩ (.error (.httpError 500))).2 = 0 ∧
      (sendMessageToAI ⟨"sk-test", ""⟩ (.error (.httpError 500))).1 =
        .error (if ("sk-test" : String) = "" then .missingApiKey else .missingEndpoint)) :=
  ⟨c8_config_before_fetch ⟨"", "https://api.example/v1"⟩ (.error (.httpError 500))
      (Or.inl rfl),
    c8_config_before_fetch ⟨"sk-test", ""⟩ (.error (.httpError 500)) (Or.inr rfl)⟩

/-! ## Parsing helper lemmas for concrete inputs -/

/-- Parsing a rendered natural number recovers it. -/
theorem jsParseFloat_natStr (a : Nat) : jsParseFloat (natStr a) = some (a : ℚ) := by
  have hall := natToChars_digits a
  have hne := natToChars_ne_nil a
  obtain ⟨c0, cs0, hc0⟩ : ∃ c0 cs0, natToChars a = c0 :: cs0 := by
    cases h : natToChars a with
    | nil => exact absurd h hne
    | cons x xs => exact ⟨x, xs, rfl⟩
  have hc0digit : isDigitCh c0 = true := by
    apply hall; rw [hc0]; simp
  unfold jsParseFloat natStr
  show parseSigned ((natToChars a).dropWhile isSpaceCh) = some (a : ℚ)
  rw [hc0]
  have hdrop : ((c0 :: cs0).dropWhile isSpaceCh) = c0 :: cs0 := by
    simp [List.dropWhile_cons, isSpaceCh_of_digit hc0digit]
  rw [hdrop]
  simp only [parseSigned]
  rw [if_neg (digit_ne_minus hc0digit), if_neg (digit_ne_plus hc0digit)]
  unfold parseMantissaExp parseUnsigned
  rw [← hc0]
  rw [takeWhile_all (natToChars a) hall, dropWhile_all (natToChars a) hall]
  have hie : (natToChars a).isEmpty = false := by
    rw [hc0]; rfl
  simp only [hie, Bool.false_eq_true, if_false]
  show some (applyExp (digitsVal (natToChars a) : ℚ) []) = some (a : ℚ)
  rw [digitsVal_natToChars]
  rfl

theorem missingRequired_empty {q : AIQuotationData} (h : missingRequired q = []) :
    q.companyName ≠ "" ∧ q.projectName ≠ "" ∧ q.items.isNone = false ∧
      q.totalAmount ≠ "" := by
  unfold missingRequired at h
  by_cases h1 : q.companyName = "" <;> by_cases h2 : q.projectName = "" <;>
    by_cases h3 : q.items.isNone <;> by_cases h4 : q.totalAmount = "" <;>
    simp [h1, h2, h3, h4] at h ⊢

/-! ## Claim C5 -/

/-- Counterexample to C5 as stated: with the user-supplied budget string
`"0"` (budget value `B = 0`) and an AI payload whose total parses to
`T = 100 > B`, `generateQuotation` does not reject — the guard requires
`budget > 0` — and the payload is accepted. -/
theorem c5_budget_counterexample :
    (jsParseFloat exampleProjectInfoB0.budget).getD 0 = 0 ∧
    (jsParseFloat (exampleAIQuotation "100" "100").totalAmount).getD 0 = 100 ∧
    ((100 : ℚ) > 0) ∧
    (generateQuotationValidate exampleProjectInfoB0 (exampleAIQuotation "100" "100")
        "000001" "2025/01/01").isOk = true := by
  have hb : jsParseFloat "0" = some ((0 : Nat) : ℚ) := jsParseFloat_natStr 0
  have hb0 : (jsParseFloat "0").getD 0 = 0 := by rw [hb]; simp
  have ht : jsParseFloat "100" = some ((100 : Nat) : ℚ) := jsParseFloat_natStr 100
  have ht100 : (jsParseFloat "100").getD 0 = 100 := by rw [ht]; simp
  refine ⟨hb0, ht100, by norm_num, ?_⟩
  unfold generateQuotationValidate
  simp only [exampleAIQuotation, exampleProjectInfoB0]
  rw [if_neg (by decide), if_neg (by decide)]
  rw [if_neg (by
    rw [hb0]
    simp)]
  rfl

/-- C5 amended: the budget rejection happens exactly when the budget
string parses to a positive value `B` and the payload total `T` exceeds
it; with `0 < B` and `T ≤ B` the payload passes the budget check and the
returned total amount is the unchanged `T`, reformatted with the
currency marker (never truncated or adjusted).  A budget that parses to
zero (or not at all, or negative) disables the check. -/
theorem c5_budget_check (pinfo : ProjectInfo) (q : AIQuotationData)
    (its : List AIQuotationItem) (nowSuffix todayStr : String) (B T : ℚ)
    (hitems : q.items = some its)
    (hmiss : missingRequired q = [])
    (hne : its ≠ [])
    (hB : jsParseFloat pinfo.budget = some B)
    (hT : jsParseFloat q.totalAmount = some T)
    (hBpos : 0 < B) :
    (T > B →
      generateQuotationValidate pinfo q nowSuffix todayStr =
        .error (.budgetExceeded T B)) ∧
    (T ≤ B →
      (generateQuotationValidate pinfo q nowSuffix todayStr).isOk = true ∧
      (generateQuotationValidate pinfo q nowSuffix todayStr).toOption.map
          (fun r => r.1.totalAmount) = some ("MOP $ " ++ toFixed2 T)) := by
  have hta : q.totalAmount ≠ "" := (missingRequired_empty hmiss).2.2.2
  have hmop : parseFalsyOr0 q.totalAmount = some T := by
    unfold parseFalsyOr0
    rw [if_neg hta, hT]
  have hlen : ¬ its.length = 0 := fun h => hne (List.length_eq_zero.mp h)
  constructor
  · intro hTB
    simp only [generateQuotationValidate, hitems]
    rw [if_neg (by simp [hmiss]), if_neg hlen]
    simp only [hB, hT, Option.getD_some]
    rw [if_pos ⟨hBpos, hTB⟩]
  · intro hTB
    simp only [generateQuotationValidate, hitems]
    rw [if_neg (by simp [hmiss]), if_neg hlen]
    simp only [hB, hT, Option.getD_some]
    rw [if_neg (fun hand => absurd hand.2 (not_lt.mpr hTB))]
    refine ⟨rfl, ?_⟩
    show some (mopOf (parseFalsyOr0 q.totalAmount)) = some ("MOP $ " ++ toFixed2 T)
    rw [hmop]
    rfl

/-- Witness for the amended C5: with budget "1000", a payload totalling
2000 is rejected with the explicit budget-exceeded error, and a payload
totalling 100 is accepted with its total re-emitted unchanged behind the
currency marker. -/
theorem c5_budget_check_witness :
    generateQuotationValidate exampleProjectInfoB1000 (exampleAIQuotation "2000" "2000")
        "000001" "2025/01/01" =
      .error (.budgetExceeded 2000 1000) ∧
    (generateQuotationValidate exampleProjectInfoB1000 (exampleAIQuotation "100" "100")
        "000001" "2025/01/01").isOk = true ∧
    (generateQuotationValidate exampleProjectInfoB1000 (exampleAIQuotation "100" "100")
        "000001" "2025/01/01").toOption.map (fun r => r.1.totalAmount) =
      some ("MOP $ " ++ toFixed2 100) := by
  have hB : jsParseFloat "1000" = some (1000 : ℚ) := by
    simpa using jsParseFloat_natStr 1000
  have hT2 : jsParseFloat "2000" = some (2000 : ℚ) := by
    simpa using jsParseFloat_natStr 2000
  have hT1 : jsParseFloat "100" = some (100 : ℚ) := by
    simpa using jsParseFloat_natStr 100
  refine ⟨?_, ?_, ?_⟩
  · exact (c5_budget_check exampleProjectInfoB1000 (exampleAIQuotation "2000" "2000")
      [exampleAIItem "2000"] "000001" "2025/01/01" 1000 2000 rfl (by decide) (by decide)
      hB hT2 (by norm_num)).1 (by norm_num)
  · exact ((c5_budget_check exampleProjectInfoB1000 (exampleAIQuotation "100" "100")
      [exampleAIItem "100"] "000001" "2025/01/01" 1000 100 rfl (by decide) (by decide)
      hB hT1 (by norm_num)).2 (by norm_num)).1
  · exact ((c5_budget_check exampleProjectInfoB1000 (exampleAIQuotation "100" "100")
      [exampleAIItem "100"] "000001" "2025/01/01" 1000 100 rfl (by decide) (by decide)
      hB hT1 (by norm_num)).2 (by norm_num)).2

/-! ## Claim C10 -/

/-- C10: a parsed payload whose items' totals sum to a value differing
from its totalAmount by more than 0.01 is not rejected — provided the
required-field, non-empty-items and budget checks pass, validation
succeeds, returns the payload, and only raises the warning flag (the
`console.warn`). -/
theorem c10_items_sum_mismatch_accepted (pinfo : ProjectInfo) (q : AIQuotationData)
    (its : List AIQuotationItem) (nowSuffix todayStr : String) (S T : ℚ)
    (hitems : q.items = some its)
    (hmiss : missingRequired q = [])
    (hne : its ≠ [])
    (hT : jsParseFloat q.totalAmount = some T)
    (hbudget : ¬((jsParseFloat pinfo.budget).getD 0 > 0 ∧
        T > (jsParseFloat pinfo.budget).getD 0))
    (hsum : aiItemsSum its = some S)
    (hmismatch : |S - T| > 1/100) :
    (generateQuotationValidate pinfo q nowSuffix todayStr).isOk = true ∧
    (generateQuotationValidate pinfo q nowSuffix todayStr).toOption.map
        (fun r => r.2) = some true := by
  have hlen : ¬ its.length = 0 := fun h => hne (List.length_eq_zero.mp h)
  simp only [generateQuotationValidate, hitems]
  rw [if_neg (by simp [hmiss]), if_neg hlen]
  simp only [hT, Option.getD_some]
  rw [if_neg hbudget]
  refine ⟨rfl, ?_⟩
  show some (match aiItemsSum its with
    | some s => decide (|s - T| > 1/100)
    | none => false) = some true
  rw [hsum]
  show some (decide (|S - T| > 1/100)) = some true
  rw [decide_eq_true hmismatch]

/-- Witness for C10: budget "1000", payload total "100" but a single
item totalling "50" — the mismatch is 50 > 0.01, the payload is still
accepted and the warning flag is raised. -/
theorem c10_items_sum_mismatch_accepted_witness :
    (generateQuotationValidate exampleProjectInfoB1000 (exampleAIQuotation "100" "50")
        "000001" "2025/01/01").isOk = true ∧
    (generateQuotationValidate exampleProjectInfoB1000 (exampleAIQuotation "100" "50")
        "000001" "2025/01/01").toOption.map (fun r => r.2) = some true := by
  have hB : jsParseFloat "1000" = some (1000 : ℚ) := by
    simpa using jsParseFloat_natStr 1000
  have hT : jsParseFloat "100" = some (100 : ℚ) := by
    simpa using jsParseFloat_natStr 100
  have h50 : jsParseFloat "50" = some (50 : ℚ) := by
    simpa using jsParseFloat_natStr 50
  have hsum : aiItemsSum [exampleAIItem "50"] = some 50 := by
    unfold aiItemsSum
    simp only [List.foldl_cons, List.foldl_nil]
    rw [show parseFalsyOr0 (exampleAIItem "50").totalPrice = some (50 : ℚ) by
      unfold parseFalsyOr0 exampleAIItem
      rw [if_neg (by decide)]
      exact h50]
    norm_num
  exact c10_items_sum_mismatch_accepted exampleProjectInfoB1000
    (exampleAIQuotation "100" "50") [exampleAIItem "50"] "000001" "2025/01/01" 50 100
    rfl (by decide) (by decide) hT
    (by
      show ¬((jsParseFloat "1000").getD 0 > 0 ∧ (100 : ℚ) > (jsParseFloat "1000").getD 0)
      rw [hB]
      norm_num)
    hsum (by norm_num)

/-! ## Claim C2 -/

/-- Formatted rendering of an exact non-negative hundredth. -/
theorem mopFormat_centi (K : Nat) (q : ℚ) (h : q = (K : ℚ) / 100) :
    mopFormat q =
      "MOP $ " ++ String.mk (natToChars (K / 100) ++ '.' ::
        [dchar (K / 10 % 10), dchar (K % 10)]) := by
  rw [mopFormat, h, toFixed2_centi]

/-- Counterexample to C2 as stated: an edit to the `project` field of a
row whose `totalPrice` still carries the currency marker (as rows loaded
from a generated payload do) recomputes the displayed total to
`MOP $ 0.00` — `parseFloat` fails on the prefixed string — although the
sum of quantity times unit price over the rows is 200, so the displayed
grand total does not equal the formatted Σ quantity × unit price after
that edit. -/
theorem c2_total_counterexample :
    (handleItemChange exampleStatePrefixed 0 ItemField.project "x").totalAmount =
      "MOP $ 0.00" ∧
    mopFormat (specItemsTotal
        (handleItemChange exampleStatePrefixed 0 ItemField.project "x").items) =
      "MOP $ 200.00" ∧
    (handleItemChange exampleStatePrefixed 0 ItemField.project "x").totalAmount ≠
      mopFormat (specItemsTotal
        (handleItemChange exampleStatePrefixed 0 ItemField.project "x").items) := by
  have h100 : jsParseFloat "100" = some ((100 : Nat) : ℚ) := jsParseFloat_natStr 100
  have htotal : (handleItemChange exampleStatePrefixed 0 ItemField.project "x").totalAmount
      = mopFormat (0 + (0 : ℚ)) := rfl
  have hzero : (handleItemChange exampleStatePrefixed 0 ItemField.project "x").totalAmount
      = "MOP $ 0.00" := by
    rw [htotal, mopFormat_centi 0 _ (by norm_num)]
    rfl
  have hspec : specItemsTotal
      (handleItemChange exampleStatePrefixed 0 ItemField.project "x").items
      = 0 + (2 : ℚ) * (jsParseFloat "100").getD 0 := rfl
  have hspec200 : mopFormat (specItemsTotal
      (handleItemChange exampleStatePrefixed 0 ItemField.project "x").items)
      = "MOP $ 200.00" := by
    rw [hspec, h100]
    rw [mopFormat_centi 20000 _ (by push_cast; norm_num)]
    rfl
  exact ⟨hzero, hspec200, by rw [hzero, hspec200]; decide⟩

theorem foldl_rows_congr (l : List SheetItem) :
    ∀ a : ℚ,
      (∀ it ∈ l, it.totalPrice.parseFloatOr0 =
        it.quantity.parseFloatOr0 * it.unitPrice.parseFloatOr0) →
      l.foldl (fun s it => s + it.totalPrice.parseFloatOr0) a =
        l.foldl (fun s it => s + it.quantity.parseFloatOr0 * it.unitPrice.parseFloatOr0) a := by
  induction l with
  | nil => intro a _; rfl
  | cons x xs ih =>
    intro a h
    simp only [List.foldl_cons]
    rw [h x (by simp)]
    exact ih _ (fun it hit => h it (by simp [hit]))

/-- The row-total sum the code computes agrees with the specified
Σ quantity × unit price when every row's `totalPrice` parses back to its
own quantity times unit price. -/
theorem sumRowTotals_eq_spec (l : List SheetItem)
    (h : ∀ it ∈ l, it.totalPrice.parseFloatOr0 =
      it.quantity.parseFloatOr0 * it.unitPrice.parseFloatOr0) :
    sumRowTotals l = specItemsTotal l :=
  foldl_rows_congr l 0 h

theorem updateAt_mem (l : List SheetItem) :
    ∀ (i : Nat) (g : SheetItem → SheetItem), ∀ it ∈ updateAt l i g,
      (∃ h : i < l.length, it = g (l.get ⟨i, h⟩)) ∨ it ∈ l := by
  induction l with
  | nil => intro i g it hit; simp [updateAt] at hit
  | cons x xs ih =>
    intro i g it hit
    cases i with
    | zero =>
      simp only [updateAt, List.mem_cons] at hit
      rcases hit with rfl | hit
      · exact Or.inl ⟨by simp, rfl⟩
      · exact Or.inr (by simp [hit])
    | succ i =>
      simp only [updateAt, List.mem_cons] at hit
      rcases hit with rfl | hit
      · exact Or.inr (by simp)
      · rcases ih i g it hit with ⟨h, heq⟩ | hmem
        · exact Or.inl ⟨by simpa using Nat.succ_lt_succ h, heq⟩
        · exact Or.inr (by simp [hmem])

/-- The edited row emerges from `handleItemChange` with a `totalPrice`
that parses back to its quantity times unit price, provided that product
is an exact non-negative hundredth. -/
theorem recomputeRowTotal_consistent (it : SheetItem) (f : ItemField)
    (hf : f = ItemField.quantity ∨ f = ItemField.unitPrice)
    (K : Nat)
    (hK : it.quantity.parseFloatOr0 * it.unitPrice.parseFloatOr0 = (K : ℚ) / 100) :
    (recomputeRowTotal it f).totalPrice.parseFloatOr0 =
      (recomputeRowTotal it f).quantity.parseFloatOr0 *
        (recomputeRowTotal it f).unitPrice.parseFloatOr0 := by
  unfold recomputeRowTotal
  rw [if_pos hf]
  show (JSVal.str (toFixed2 (it.quantity.parseFloatOr0 * it.unitPrice.parseFloatOr0))).parseFloatOr0
      = it.quantity.parseFloatOr0 * it.unitPrice.parseFloatOr0
  show (jsParseFloat (toFixed2 (it.quantity.parseFloatOr0 * it.unitPrice.parseFloatOr0))).getD 0
      = it.quantity.parseFloatOr0 * it.unitPrice.parseFloatOr0
  rw [hK, jsParseFloat_toFixed2]
  rfl

/-- C2 amended: after an edit to an item's quantity or unit price, the
displayed grand total equals the formatted Σ quantity × unit price over
all rows — with the currency marker `MOP $ ` and two decimals — provided
every pre-edit row's stored `totalPrice` parses back to its own quantity
times unit price and the edited row's new product is an exact
non-negative hundredth.  (Without those provisos the displayed total is
the formatted sum of the rows' re-parsed `totalPrice` strings, which the
counterexample shows can differ from Σ quantity × unit price.) -/
theorem c2_total_recompute (st : SheetState) (i : Nat) (f : ItemField) (v : String)
    (hf : f = ItemField.quantity ∨ f = ItemField.unitPrice)
    (hrows : ∀ it ∈ st.items,
      it.totalPrice.parseFloatOr0 =
        it.quantity.parseFloatOr0 * it.unitPrice.parseFloatOr0)
    (hedited : ∀ h : i < st.items.length, ∃ K : Nat,
      (setItemField (st.items.get ⟨i, h⟩) f v).quantity.parseFloatOr0 *
        (setItemField (st.items.get ⟨i, h⟩) f v).unitPrice.parseFloatOr0
        = (K : ℚ) / 100) :
    (handleItemChange st i f v).totalAmount =
      mopFormat (specItemsTotal (handleItemChange st i f v).items) := by
  show mopFormat (sumRowTotals (updateAt st.items i
      (fun it => recomputeRowTotal (setItemField it f v) f))) =
    mopFormat (specItemsTotal (updateAt st.items i
      (fun it => recomputeRowTotal (setItemField it f v) f)))
  congr 1
  apply sumRowTotals_eq_spec
  intro it hit
  rcases updateAt_mem st.items i (fun it => recomputeRowTotal (setItemField it f v) f)
      it hit with ⟨h, rfl⟩ | hmem
  · obtain ⟨K, hK⟩ := hedited h
    exact recomputeRowTotal_consistent _ f hf K hK
  · exact hrows it hmem

/-- Parsing a two-decimal digit rendering of `K/100` recovers it. -/
theorem jsParseFloat_centiChars (K : Nat) :
    jsParseFloat (String.mk (natToChars (K / 100) ++ '.' ::
      [dchar (K / 10 % 10), dchar (K % 10)])) = some ((K : ℚ) / 100) := by
  have h := jsParseFloat_toFixed2 K
  rw [toFixed2_centi] at h
  exact h

/-- Witness for the amended C2, at the example scenario: rows
[qty 2 × 100, qty 1 × 50] display 250.00; editing the first quantity to
3 recomputes the displayed total to the formatted
Σ quantity × unit price, which is `MOP $ 350.00`. -/
theorem c2_total_recompute_witness :
    exampleStateBare.totalAmount = "MOP $ 250.00" ∧
    (handleItemChange exampleStateBare 0 ItemField.quantity "3").totalAmount =
      mopFormat (specItemsTotal
        (handleItemChange exampleStateBare 0 ItemField.quantity "3").items) ∧
    (handleItemChange exampleStateBare 0 ItemField.quantity "3").totalAmount =
      "MOP $ 350.00" := by
  have h2 : jsParseFloat "2" = some ((2 : Nat) : ℚ) := jsParseFloat_natStr 2
  have h3 : jsParseFloat "3" = some ((3 : Nat) : ℚ) := jsParseFloat_natStr 3
  have h1 : jsParseFloat "1" = some ((1 : Nat) : ℚ) := jsParseFloat_natStr 1
  have h50 : jsParseFloat "50" = some ((50 : Nat) : ℚ) := jsParseFloat_natStr 50
  have h100 : jsParseFloat "100" = some ((100 : Nat) : ℚ) := jsParseFloat_natStr 100
  have h20000 : jsParseFloat "200.00" = some (((20000 : Nat) : ℚ) / 100) :=
    jsParseFloat_centiChars 20000
  have h5000 : jsParseFloat "50.00" = some (((5000 : Nat) : ℚ) / 100) :=
    jsParseFloat_centiChars 5000
  have hrows : ∀ it ∈ exampleStateBare.items,
      it.totalPrice.parseFloatOr0 =
        it.quantity.parseFloatOr0 * it.unitPrice.parseFloatOr0 := by
    intro it hit
    have hcases : it = exampleRow1 ∨ it = exampleRow2 := by
      simpa [exampleStateBare] using hit
    rcases hcases with rfl | rfl
    · show (jsParseFloat "200.00").getD 0 =
        (jsParseFloat "2").getD 0 * (jsParseFloat "100").getD 0
      rw [h20000, h2, h100]
      push_cast
      norm_num
    · show (jsParseFloat "50.00").getD 0 =
        (jsParseFloat "1").getD 0 * (jsParseFloat "50").getD 0
      rw [h5000, h1, h50]
      push_cast
      norm_num
  have hprod : (jsParseFloat "3").getD 0 * (jsParseFloat "100").getD 0
      = ((30000 : Nat) : ℚ) / 100 := by
    rw [h3, h100]
    push_cast
    norm_num
  have hmain : (handleItemChange exampleStateBare 0 ItemField.quantity "3").totalAmount =
      mopFormat (specItemsTotal
        (handleItemChange exampleStateBare 0 ItemField.quantity "3").items) :=
    c2_total_recompute exampleStateBare 0 ItemField.quantity "3" (Or.inl rfl) hrows
      (fun h => ⟨30000, by
        show (jsParseFloat "3").getD 0 * (jsParseFloat "100").getD 0
          = ((30000 : Nat) : ℚ) / 100
        exact hprod⟩)
  refine ⟨rfl, hmain, ?_⟩
  have htot : (handleItemChange exampleStateBare 0 ItemField.quantity "3").totalAmount =
      mopFormat ((0 + (jsParseFloat
          (toFixed2 ((jsParseFloat "3").getD 0 * (jsParseFloat "100").getD 0))).getD 0)
        + (jsParseFloat "50.00").getD 0) := rfl
  rw [htot, hprod, jsParseFloat_toFixed2, h5000]
  rw [mopFormat_centi 35000 _ (by push_cast; norm_num)]
  rfl

/-! ## Claim C3 -/

/-- Counterexample to C3 as stated: adding a row to a sheet whose
existing row was loaded from a generated payload — its `totalPrice`
still carries the currency marker — recomputes the stored total to
`MOP $ 0.00`, because `parseFloat` fails on the prefixed string, while
the sum over the rows of quantity times unit price (the line amounts) is
200; so after this item-mutating operation the stored `totalAmount` does
not equal the sum of the line amounts. -/
theorem c3_total_counterexample :
    (handleAddItem exampleStatePrefixed).totalAmount = "MOP $ 0.00" ∧
    mopFormat (specItemsTotal (handleAddItem exampleStatePrefixed).items) =
      "MOP $ 200.00" ∧
    (handleAddItem exampleStatePrefixed).totalAmount ≠
      mopFormat (specItemsTotal (handleAddItem exampleStatePrefixed).items) := by
  have h100 : jsParseFloat "100" = some ((100 : Nat) : ℚ) := jsParseFloat_natStr 100
  have hz : jsParseFloat "0.00" = some (((0 : Nat) : ℚ) / 100) :=
    jsParseFloat_centiChars 0
  have htotal : (handleAddItem exampleStatePrefixed).totalAmount
      = mopFormat ((0 + (0 : ℚ)) + (jsParseFloat "0.00").getD 0) := rfl
  have hzero : (handleAddItem exampleStatePrefixed).totalAmount = "MOP $ 0.00" := by
    rw [htotal, hz]
    rw [mopFormat_centi 0 _ (by push_cast; norm_num)]
    rfl
  have hspec : specItemsTotal (handleAddItem exampleStatePrefixed).items
      = (0 + (2 : ℚ) * (jsParseFloat "100").getD 0)
        + 1 * (jsParseFloat "0.00").getD 0 := rfl
  have hspec200 : mopFormat (specItemsTotal (handleAddItem exampleStatePrefixed).items)
      = "MOP $ 200.00" := by
    rw [hspec, h100, hz]
    rw [mopFormat_centi 20000 _ (by push_cast; norm_num)]
    rfl
  exact ⟨hzero, hspec200, by rw [hzero, hspec200]; decide⟩

/-- C3 amended: after each item-mutating operation of the sheet — an
item-field edit, an added row, or a deletion that actually removes a
row — the stored `totalAmount` equals the formatted sum of the rows
individual `totalPrice` strings re-parsed the way the code reads them,
`parseFloat(x) || 0`; the guarded delete on at most one row mutates
nothing.  This recomputation re-establishes the
sum-of-line-amounts-equals-total invariant exactly on states all of
whose resulting rows store a `totalPrice` that parses back to that row
quantity times unit price (final conjunct) — a condition the
counterexample shows to fail for rows whose `totalPrice` still carries
the currency marker, as rows loaded from a generated payload do. -/
theorem c3_total_invariant :
    (∀ (st : SheetState) (i : Nat) (f : ItemField) (v : String),
        (handleItemChange st i f v).totalAmount =
          mopFormat (sumRowTotals (handleItemChange st i f v).items)) ∧
    (∀ st : SheetState,
        (handleAddItem st).totalAmount =
          mopFormat (sumRowTotals (handleAddItem st).items)) ∧
    (∀ (st : SheetState) (i : Nat), 2 ≤ st.items.length →
        ((handleDeleteItem st i).1).totalAmount =
          mopFormat (sumRowTotals ((handleDeleteItem st i).1).items)) ∧
    (∀ (st : SheetState) (i : Nat), st.items.length ≤ 1 →
        handleDeleteItem st i = (st, true)) ∧
    (∀ l : List SheetItem,
        (∀ it ∈ l, it.totalPrice.parseFloatOr0 =
          it.quantity.parseFloatOr0 * it.unitPrice.parseFloatOr0) →
        mopFormat (sumRowTotals l) = mopFormat (specItemsTotal l)) := by
  refine ⟨fun st i f v => rfl, fun st => rfl, ?_, ?_, ?_⟩
  · intro st i h
    unfold handleDeleteItem
    rw [if_neg (by omega)]
  · intro st i h
    unfold handleDeleteItem
    rw [if_pos h]
  · intro l h
    exact congrArg mopFormat (sumRowTotals_eq_spec l h)

/-- Witness for the amended C3: the recomputation invariant after an
edit, an append and a delete on the two-row example state, the untouched
state for the guarded delete on the one-row state, and the bridge to the
quantity-times-price sum on the consistent two-row state. -/
theorem c3_total_invariant_witness :
    (handleItemChange exampleStateBare 0 ItemField.quantity "3").totalAmount =
      mopFormat (sumRowTotals
        (handleItemChange exampleStateBare 0 ItemField.quantity "3").items) ∧
    (handleAddItem exampleStateBare).totalAmount =
      mopFormat (sumRowTotals (handleAddItem exampleStateBare).items) ∧
    ((handleDeleteItem exampleStateBare 0).1).totalAmount =
      mopFormat (sumRowTotals ((handleDeleteItem exampleStateBare 0).1).items) ∧
    handleDeleteItem exampleStatePrefixed 0 = (exampleStatePrefixed, true) ∧
    mopFormat (sumRowTotals exampleStateBare.items) =
      mopFormat (specItemsTotal exampleStateBare.items) := by
  have h2 : jsParseFloat "2" = some ((2 : Nat) : ℚ) := jsParseFloat_natStr 2
  have h1 : jsParseFloat "1" = some ((1 : Nat) : ℚ) := jsParseFloat_natStr 1
  have h100 : jsParseFloat "100" = some ((100 : Nat) : ℚ) := jsParseFloat_natStr 100
  have h50 : jsParseFloat "50" = some ((50 : Nat) : ℚ) := jsParseFloat_natStr 50
  have h20000 : jsParseFloat "200.00" = some (((20000 : Nat) : ℚ) / 100) :=
    jsParseFloat_centiChars 20000
  have h5000 : jsParseFloat "50.00" = some (((5000 : Nat) : ℚ) / 100) :=
    jsParseFloat_centiChars 5000
  have hrows : ∀ it ∈ exampleStateBare.items,
      it.totalPrice.parseFloatOr0 =
        it.quantity.parseFloatOr0 * it.unitPrice.parseFloatOr0 := by
    intro it hit
    have hcases : it = exampleRow1 ∨ it = exampleRow2 := by
      simpa [exampleStateBare] using hit
    rcases hcases with rfl | rfl
    · show (jsParseFloat "200.00").getD 0 =
        (jsParseFloat "2").getD 0 * (jsParseFloat "100").getD 0
      rw [h20000, h2, h100]
      push_cast
      norm_num
    · show (jsParseFloat "50.00").getD 0 =
        (jsParseFloat "1").getD 0 * (jsParseFloat "50").getD 0
      rw [h5000, h1, h50]
      push_cast
      norm_num
  exact ⟨c3_total_invariant.1 exampleStateBare 0 ItemField.quantity "3",
    c3_total_invariant.2.1 exampleStateBare,
    c3_total_invariant.2.2.1 exampleStateBare 0 (by decide),
    c3_total_invariant.2.2.2.1 exampleStatePrefixed 0 (by decide),
    c3_total_invariant.2.2.2.2 exampleStateBare.items hrows⟩

/-! ## Claim C6 -/

/-- Counterexample to C6 as stated: when rendering throws, the
quotation-sheet element's `fontFamily` — overridden for the export just
like the thirteen saved properties — is NOT restored to its pre-export
value, because `originalStyle` never captures it: starting from a serif
font, the failed export leaves the forced sans-serif stack in place. -/
theorem c6_pdf_error_counterexample :
    examplePageState.sheetStyle.fontFamily = "serif" ∧
    (exportWithLibrary examplePageState true "quotation.pdf").2.sheetStyle.fontFamily =
      exportSheetStyle.fontFamily ∧
    (exportWithLibrary examplePageState true "quotation.pdf").2.sheetStyle.fontFamily ≠
      "serif" := by
  refine ⟨rfl, rfl, ?_⟩
  decide

/-- C6 amended: if rendering throws, the export returns `false`, the
error is surfaced through exactly one alert, no file is saved, the
hidden `.hide-in-pdf` elements and the swapped inputs and the temporary
style tag are restored, and the thirteen captured style properties of
the sheet element return to their pre-export values — but the
`fontFamily` keeps the forced export value, and the download-button
container's display is reset to the empty string rather than its prior
value (a visible left panel is restored; one already hidden is not part
of the claim). -/
theorem c6_pdf_error_restoration (st : PdfPageState) (filename : String)
    (hsheet : st.sheetExists = true) :
    (exportWithLibrary st true filename).1 = false ∧
    (exportWithLibrary st true filename).2.alertCount = st.alertCount + 1 ∧
    (exportWithLibrary st true filename).2.savedPdfFiles = st.savedPdfFiles ∧
    (exportWithLibrary st true filename).2.inputsSwapped = false ∧
    (exportWithLibrary st true filename).2.tempStyleInjected = false ∧
    (exportWithLibrary st true filename).2.hideInPdfDisplays = st.hideInPdfDisplays ∧
    (exportWithLibrary st true filename).2.sheetStyle =
      { st.sheetStyle with fontFamily := exportSheetStyle.fontFamily } ∧
    (st.leftPanelDisplay ≠ "none" →
      (exportWithLibrary st true filename).2.leftPanelDisplay = st.leftPanelDisplay) ∧
    (exportWithLibrary st true filename).2.downloadBtnDisplay =
      (if st.downloadBtnExists then "" else st.downloadBtnDisplay) := by
  have hres : exportWithLibrary st true filename =
      (false,
        { st with
            alertCount := st.alertCount + 1
            inputsSwapped := false
            tempStyleInjected := false
            sheetStyle := restoreSavedStyle st.sheetStyle exportSheetStyle
            hideInPdfDisplays :=
              st.hideInPdfDisplays.map (fun d => if d = "none" then "none" else d)
            leftPanelDisplay :=
              if st.leftPanelExists then
                (if st.leftPanelExists && st.leftPanelDisplay != "none" then
                  st.leftPanelDisplay else "")
              else (if st.leftPanelExists && st.leftPanelDisplay != "none" then
                "none" else st.leftPanelDisplay)
            downloadBtnDisplay :=
              if st.downloadBtnExists then ""
              else (if st.downloadBtnExists then "none" else st.downloadBtnDisplay) }) := by
    unfold exportWithLibrary
    rw [hsheet]
    rfl
  rw [hres]
  refine ⟨rfl, rfl, rfl, rfl, rfl, ?_, rfl, ?_, ?_⟩
  · show st.hideInPdfDisplays.map (fun d => if d = "none" then "none" else d) =
      st.hideInPdfDisplays
    conv_rhs => rw [← List.map_id st.hideInPdfDisplays]
    apply List.map_congr_left
    intro a _
    split <;> simp_all
  · intro hlp
    show (if st.leftPanelExists then
        (if st.leftPanelExists && st.leftPanelDisplay != "none" then
          st.leftPanelDisplay else "")
      else (if st.leftPanelExists && st.leftPanelDisplay != "none" then
        "none" else st.leftPanelDisplay)) = st.leftPanelDisplay
    by_cases he : st.leftPanelExists <;> simp [he, hlp]
  · show (if st.downloadBtnExists then ""
      else (if st.downloadBtnExists then "none" else st.downloadBtnDisplay)) =
      (if st.downloadBtnExists then "" else st.downloadBtnDisplay)
    by_cases hd : st.downloadBtnExists <;> simp [hd]

/-- Witness for the amended C6 at the example page state. -/
theorem c6_pdf_error_restoration_witness :
    (exportWithLibrary examplePageState true "quotation.pdf").1 = false ∧
    (exportWithLibrary examplePageState true "quotation.pdf").2.alertCount =
      examplePageState.alertCount + 1 ∧
    (exportWithLibrary examplePageState true "quotation.pdf").2.savedPdfFiles =
      examplePageState.savedPdfFiles ∧
    (exportWithLibrary examplePageState true "quotation.pdf").2.inputsSwapped = false ∧
    (exportWithLibrary examplePageState true "quotation.pdf").2.tempStyleInjected = false ∧
    (exportWithLibrary examplePageState true "quotation.pdf").2.hideInPdfDisplays =
      examplePageState.hideInPdfDisplays ∧
    (exportWithLibrary examplePageState true "quotation.pdf").2.sheetStyle =
      { examplePageState.sheetStyle with fontFamily := exportSheetStyle.fontFamily } ∧
    (examplePageState.leftPanelDisplay ≠ "none" →
      (exportWithLibrary examplePageState true "quotation.pdf").2.leftPanelDisplay =
        examplePageState.leftPanelDisplay) ∧
    (exportWithLibrary examplePageState true "quotation.pdf").2.downloadBtnDisplay =
      (if examplePageState.downloadBtnExists then ""
        else examplePageState.downloadBtnDisplay) :=
  c6_pdf_error_restoration examplePageState "quotation.pdf" rfl

/-! ## Claim C4: fence-stripping lemmas -/

theorem stripFenceMarks_nil (p : Char) (ps : List Char) :
    stripFenceMarks p ps [] = [] := by
  simp only [stripFenceMarks]

theorem stripFenceMarks_no_tick (ps : List Char) (l : List Char)
    (h : ∀ c ∈ l, c ≠ tickChar) : stripFenceMarks tickChar ps l = l := by
  induction l with
  | nil => exact stripFenceMarks_nil _ _
  | cons c rest ih =>
    have hc : c ≠ tickChar := h c (by simp)
    have hcond : ¬ ((c :: rest).take (ps.length + 1) = tickChar :: ps) := by
      rw [List.take_succ_cons]
      intro hEq
      injection hEq with h1 _
      exact hc h1
    simp only [stripFenceMarks]
    rw [if_neg hcond, ih (fun x hx => h x (by simp [hx]))]

theorem stripFenceMarks_append_no_tick (ps xs ys : List Char)
    (h : ∀ c ∈ xs, c ≠ tickChar) :
    stripFenceMarks tickChar ps (xs ++ ys) = xs ++ stripFenceMarks tickChar ps ys := by
  induction xs with
  | nil => simp
  | cons c rest ih =>
    have hc : c ≠ tickChar := h c (by simp)
    have hcond : ¬ ((c :: (rest ++ ys)).take (ps.length + 1) = tickChar :: ps) := by
      rw [List.take_succ_cons]
      intro hEq
      injection hEq with h1 _
      exact hc h1
    rw [List.cons_append]
    simp only [stripFenceMarks]
    rw [if_neg hcond, ih (fun x hx => h x (by simp [hx]))]
    rfl

theorem stripFenceMarks_match (ps tail : List Char) :
    stripFenceMarks tickChar ps (tickChar :: (ps ++ tail)) =
      stripFenceMarks tickChar ps (tail.dropWhile isSpaceCh) := by
  have hcond : (tickChar :: (ps ++ tail)).take (ps.length + 1) = tickChar :: ps := by
    rw [List.take_succ_cons, List.take_left]
  have hdrop : (tickChar :: (ps ++ tail)).drop (ps.length + 1) = tail := by
    rw [List.drop_succ_cons, List.drop_left]
  simp only [stripFenceMarks]
  rw [if_pos hcond, hdrop]

theorem plainFenceTail_lit : plainFenceTail = [tickChar, tickChar] := by decide

theorem jsonFenceTail_lit :
    jsonFenceTail = [tickChar, tickChar, 'j', 's', 'o', 'n'] := by decide

theorem stripPlainFences_close :
    stripPlainFences (tickChar :: plainFenceTail) = [] := by
  unfold stripPlainFences
  have h := stripFenceMarks_match plainFenceTail []
  rw [List.append_nil] at h
  rw [h]
  exact stripFenceMarks_nil tickChar plainFenceTail

theorem ne_at2 {R Rp : List Char} :
    (tickChar :: '\n' :: R) ≠ (tickChar :: tickChar :: Rp) := by
  intro hEq
  injection hEq with _ hEq
  injection hEq with h2 _
  exact absurd h2 (by decide)

theorem ne_at3 {R Rp : List Char} :
    (tickChar :: tickChar :: '\n' :: R) ≠ (tickChar :: tickChar :: tickChar :: Rp) := by
  intro hEq
  injection hEq with _ hEq
  injection hEq with _ hEq
  injection hEq with h3 _
  exact absurd h3 (by decide)

theorem ne_at4 {R Rp : List Char} :
    (tickChar :: tickChar :: tickChar :: '\n' :: R) ≠
      (tickChar :: tickChar :: tickChar :: 'j' :: Rp) := by
  intro hEq
  injection hEq with _ hEq
  injection hEq with _ hEq
  injection hEq with _ hEq
  injection hEq with h4 _
  exact absurd h4 (by decide)

theorem ne_short3 {Rp : List Char} :
    ([tickChar, tickChar, tickChar] : List Char) ≠
      (tickChar :: tickChar :: tickChar :: 'j' :: Rp) := by
  intro hEq
  injection hEq with _ hEq
  injection hEq with _ hEq
  injection hEq with _ hEq
  simp at hEq

theorem ne_short2 {Rp : List Char} :
    ([tickChar, tickChar] : List Char) ≠ (tickChar :: tickChar :: tickChar :: Rp) := by
  intro hEq
  injection hEq with _ hEq
  injection hEq with _ hEq
  simp at hEq

theorem ne_short1 {Rp : List Char} :
    ([tickChar] : List Char) ≠ (tickChar :: tickChar :: Rp) := by
  intro hEq
  injection hEq with _ hEq
  simp at hEq

/-- The ```json marker never matches inside a bare triple backtick. -/
theorem stripJsonFences_ticks3 :
    stripJsonFences (tickChar :: plainFenceTail) = tickChar :: plainFenceTail := by
  unfold stripJsonFences
  rw [plainFenceTail_lit]
  have h7 : jsonFenceTail.length + 1 = 7 := by decide
  simp only [stripFenceMarks]
  rw [if_neg (by
      rw [h7, jsonFenceTail_lit]
      show ([tickChar, tickChar, tickChar] : List Char).take 7 ≠ _
      rw [show ([tickChar, tickChar, tickChar] : List Char).take 7 =
        [tickChar, tickChar, tickChar] from by decide]
      exact ne_short3)]
  rw [if_neg (by
      rw [h7, jsonFenceTail_lit]
      show ([tickChar, tickChar] : List Char).take 7 ≠ _
      rw [show ([tickChar, tickChar] : List Char).take 7 =
        [tickChar, tickChar] from by decide]
      exact ne_short2)]
  rw [if_neg (by
      rw [h7, jsonFenceTail_lit]
      show ([tickChar] : List Char).take 7 ≠ _
      rw [show ([tickChar] : List Char).take 7 = [tickChar] from by decide]
      intro hEq
      injection hEq with _ hEq
      simp at hEq)]

theorem dropWhile_eq_self_of_head {p : Char → Bool} :
    ∀ l : List Char, (∀ c, l.head? = some c → p c = false) → l.dropWhile p = l
  | [], _ => rfl
  | c :: rest, h => by simp [List.dropWhile_cons, h c rfl]

theorem dropEndSpaces_eq_self (l : List Char)
    (h : ∀ c, l.getLast? = some c → isSpaceCh c = false) : dropEndSpaces l = l := by
  unfold dropEndSpaces
  rw [dropWhile_eq_self_of_head l.reverse
    (fun c hc => h c (by rwa [List.head?_reverse] at hc)), List.reverse_reverse]

theorem trimChars_eq_self (l : List Char)
    (hh : ∀ c, l.head? = some c → isSpaceCh c = false)
    (hl : ∀ c, l.getLast? = some c → isSpaceCh c = false) : trimChars l = l := by
  unfold trimChars
  rw [dropWhile_eq_self_of_head l hh, dropEndSpaces_eq_self l hl]

theorem dropEndSpaces_append_space (xs : List Char) (c : Char)
    (hc : isSpaceCh c = true) : dropEndSpaces (xs ++ [c]) = dropEndSpaces xs := by
  unfold dropEndSpaces
  rw [List.reverse_append]
  simp [List.dropWhile_cons, hc]

/-- Trimming after appending a newline to a left-trimmed list equals
trimming the original list. -/
theorem trimChars_append_newline (J : List Char) :
    trimChars (J.dropWhile isSpaceCh ++ ['\n']) = trimChars J := by
  unfold trimChars
  rw [List.dropWhile_append, List.dropWhile_idempotent]
  by_cases hJ : (J.dropWhile isSpaceCh).isEmpty
  · rw [if_pos hJ]
    rw [show List.dropWhile isSpaceCh ['\n'] = [] from by decide]
    rw [List.isEmpty_iff] at hJ
    rw [hJ]
  · rw [if_neg hJ]
    exact dropEndSpaces_append_space _ '\n' (by decide)

theorem head?_dropEndSpaces (X : List Char) (c : Char)
    (h : (dropEndSpaces X).head? = some c) : X.head? = some c := by
  cases X with
  | nil => simp [dropEndSpaces] at h
  | cons x xs =>
    unfold dropEndSpaces at h
    rw [List.reverse_cons, List.dropWhile_append] at h
    by_cases he : (xs.reverse.dropWhile isSpaceCh).isEmpty
    · rw [if_pos he] at h
      by_cases hx : isSpaceCh x
      · simp [List.dropWhile_cons, hx] at h
      · simp only [List.dropWhile_cons, hx, Bool.false_eq_true, if_false,
          List.dropWhile_nil] at h
        simp only [List.reverse_cons, List.reverse_nil, List.nil_append] at h
        simpa using h
    · rw [if_neg he] at h
      rw [List.reverse_append] at h
      simp only [List.reverse_cons, List.reverse_nil, List.nil_append,
        List.cons_append, List.head?_cons, List.singleton_append] at h
      simpa using h

theorem dropEndSpaces_idem (X : List Char) :
    dropEndSpaces (dropEndSpaces X) = dropEndSpaces X := by
  unfold dropEndSpaces
  rw [List.reverse_reverse, List.dropWhile_idempotent]

theorem head?_dropWhile_false {p : Char → Bool} :
    ∀ (l : List Char) (c : Char), (l.dropWhile p).head? = some c → p c = false := by
  intro l
  induction l with
  | nil => intro c hc; simp at hc
  | cons x xs ih =>
    intro c hc
    by_cases hx : p x
    · rw [List.dropWhile_cons, if_pos hx] at hc
      exact ih c hc
    · rw [List.dropWhile_cons, if_neg hx] at hc
      simp only [List.head?_cons, Option.some.injEq] at hc
      rw [← hc]
      exact Bool.eq_false_iff.mpr hx

theorem trimChars_idem (l : List Char) : trimChars (trimChars l) = trimChars l := by
  unfold trimChars
  rw [dropWhile_eq_self_of_head (dropEndSpaces (l.dropWhile isSpaceCh))
    (fun c hc => head?_dropWhile_false l c (head?_dropEndSpaces _ c hc))]
  exact dropEndSpaces_idem _

theorem mem_trimChars {c : Char} {l : List Char} (h : c ∈ trimChars l) : c ∈ l := by
  unfold trimChars dropEndSpaces at h
  rw [List.mem_reverse] at h
  have h2 := (List.dropWhile_sublist isSpaceCh).subset h
  rw [List.mem_reverse] at h2
  exact (List.dropWhile_sublist isSpaceCh).subset h2

/-- `JSON.parse` sees only the whitespace-trimmed text. -/
theorem jsonParseJS_congr {s1 s2 : String}
    (h : trimChars s1.data = trimChars s2.data) : jsonParseJS s1 = jsonParseJS s2 := by
  unfold jsonParseJS
  rw [h]

theorem no_tick_dropWhile {J : List Char} (h : ∀ c ∈ J, c ≠ tickChar) :
    ∀ c ∈ J.dropWhile isSpaceCh, c ≠ tickChar :=
  fun c hc => h c ((List.dropWhile_sublist isSpaceCh).subset hc)

theorem no_tick_append_newline {J : List Char} (h : ∀ c ∈ J, c ≠ tickChar) :
    ∀ c ∈ J ++ ['\n'], c ≠ tickChar := by
  intro c hc
  rw [List.mem_append] at hc
  rcases hc with hc | hc
  · exact h c hc
  · simp only [List.mem_singleton] at hc
    subst hc
    decide

/-- After a fence marker is removed, the whitespace-dropped remainder of
the wrapped payload is untouched by the ```json replacement. -/
theorem stripJson_dropped (J : List Char) (h : ∀ c ∈ J, c ≠ tickChar) :
    stripJsonFences ((J ++ ('\n' :: (tickChar :: plainFenceTail))).dropWhile isSpaceCh) =
      (J ++ ('\n' :: (tickChar :: plainFenceTail))).dropWhile isSpaceCh := by
  rw [List.dropWhile_append]
  by_cases hJ : (J.dropWhile isSpaceCh).isEmpty
  · rw [if_pos hJ]
    rw [show List.dropWhile isSpaceCh ('\n' :: (tickChar :: plainFenceTail)) =
      tickChar :: plainFenceTail from by decide]
    exact stripJsonFences_ticks3
  · rw [if_neg hJ, List.append_cons]
    unfold stripJsonFences
    rw [stripFenceMarks_append_no_tick jsonFenceTail _ _
      (no_tick_append_newline (no_tick_dropWhile h))]
    rw [show stripFenceMarks tickChar jsonFenceTail (tickChar :: plainFenceTail) =
      tickChar :: plainFenceTail from stripJsonFences_ticks3]

/-- The plain ``` replacement erases the closing fence and keeps the
whitespace-dropped payload. -/
theorem stripPlain_dropped (J : List Char) (h : ∀ c ∈ J, c ≠ tickChar) :
    stripPlainFences ((J ++ ('\n' :: (tickChar :: plainFenceTail))).dropWhile isSpaceCh) =
      if (J.dropWhile isSpaceCh).isEmpty then []
      else J.dropWhile isSpaceCh ++ ['\n'] := by
  rw [List.dropWhile_append]
  by_cases hJ : (J.dropWhile isSpaceCh).isEmpty
  · rw [if_pos hJ, if_pos hJ]
    rw [show List.dropWhile isSpaceCh ('\n' :: (tickChar :: plainFenceTail)) =
      tickChar :: plainFenceTail from by decide]
    exact stripPlainFences_close
  · rw [if_neg hJ, if_neg hJ, List.append_cons]
    unfold stripPlainFences
    rw [stripFenceMarks_append_no_tick plainFenceTail _ _
      (no_tick_append_newline (no_tick_dropWhile h))]
    rw [show stripFenceMarks tickChar plainFenceTail (tickChar :: plainFenceTail) = []
      from stripPlainFences_close]
    rw [List.append_nil]

/-- The wrapped reply has no outer whitespace: `trim` is the identity on
it. -/
theorem trimChars_tick_wrapped (mid : List Char) :
    trimChars (tickChar :: (mid ++ ('\n' :: (tickChar :: plainFenceTail)))) =
      tickChar :: (mid ++ ('\n' :: (tickChar :: plainFenceTail))) := by
  apply trimChars_eq_self
  · intro c hc
    rw [List.head?_cons, Option.some.injEq] at hc
    subst hc
    decide
  · intro c hc
    rw [show tickChar :: (mid ++ ('\n' :: (tickChar :: plainFenceTail))) =
      (tickChar :: mid) ++ ('\n' :: (tickChar :: plainFenceTail)) from rfl] at hc
    rw [List.getLast?_append_of_ne_nil _ (by simp)] at hc
    rw [show ('\n' :: (tickChar :: plainFenceTail)).getLast? = some tickChar
      from by decide] at hc
    rw [Option.some.injEq] at hc
    subst hc
    decide

/-- Full fence-stripping of a ```json-wrapped payload. -/
theorem extract_json_fenced (J : List Char) (h : ∀ c ∈ J, c ≠ tickChar) :
    stripPlainFences (stripJsonFences (trimChars
      (tickChar :: (jsonFenceTail ++
        ('\n' :: (J ++ ('\n' :: (tickChar :: plainFenceTail)))))))) =
    if (J.dropWhile isSpaceCh).isEmpty then []
    else J.dropWhile isSpaceCh ++ ['\n'] := by
  rw [show jsonFenceTail ++ ('\n' :: (J ++ ('\n' :: (tickChar :: plainFenceTail)))) =
    (jsonFenceTail ++ ('\n' :: J)) ++ ('\n' :: (tickChar :: plainFenceTail)) from by
      simp [List.append_assoc]]
  rw [trimChars_tick_wrapped]
  rw [show (jsonFenceTail ++ ('\n' :: J)) ++ ('\n' :: (tickChar :: plainFenceTail)) =
    jsonFenceTail ++ ('\n' :: (J ++ ('\n' :: (tickChar :: plainFenceTail)))) from by
      simp [List.append_assoc]]
  unfold stripJsonFences
  rw [stripFenceMarks_match]
  rw [show ('\n' :: (J ++ ('\n' :: (tickChar :: plainFenceTail)))).dropWhile isSpaceCh =
    (J ++ ('\n' :: (tickChar :: plainFenceTail))).dropWhile isSpaceCh from by
      rw [List.dropWhile_cons, if_pos (by decide)]]
  rw [show stripFenceMarks tickChar jsonFenceTail
      ((J ++ ('\n' :: (tickChar :: plainFenceTail))).dropWhile isSpaceCh) =
    (J ++ ('\n' :: (tickChar :: plainFenceTail))).dropWhile isSpaceCh
    from stripJson_dropped J h]
  exact stripPlain_dropped J h

theorem ne_head_nl {R Rp : List Char} : ('\n' :: R) ≠ (tickChar :: Rp) := by
  intro hEq
  injection hEq with h1 _
  exact absurd h1 (by decide)

theorem stripJson_ticks3_lit :
    stripFenceMarks tickChar jsonFenceTail [tickChar, tickChar, tickChar] =
      [tickChar, tickChar, tickChar] := by
  have h := stripJsonFences_ticks3
  unfold stripJsonFences at h
  rwa [plainFenceTail_lit] at h

/-- The ```json replacement leaves a plain-fenced reply unchanged: no
seven-character window matches the longer marker. -/
theorem stripJson_plain_wrapped (J : List Char) (h : ∀ c ∈ J, c ≠ tickChar) :
    stripJsonFences (tickChar :: (plainFenceTail ++
      ('\n' :: (J ++ ('\n' :: (tickChar :: plainFenceTail)))))) =
    tickChar :: (plainFenceTail ++
      ('\n' :: (J ++ ('\n' :: (tickChar :: plainFenceTail))))) := by
  unfold stripJsonFences
  rw [plainFenceTail_lit]
  simp only [List.cons_append, List.nil_append]
  have hlen7 : jsonFenceTail.length + 1 = 7 := by decide
  simp only [stripFenceMarks]
  rw [if_neg (by
    rw [hlen7, jsonFenceTail_lit, List.take_succ_cons, List.take_succ_cons,
      List.take_succ_cons, List.take_succ_cons]
    exact ne_at4)]
  rw [if_neg (by
    rw [hlen7, jsonFenceTail_lit, List.take_succ_cons, List.take_succ_cons,
      List.take_succ_cons]
    exact ne_at3)]
  rw [if_neg (by
    rw [hlen7, jsonFenceTail_lit, List.take_succ_cons, List.take_succ_cons]
    exact ne_at2)]
  rw [if_neg (by
    rw [hlen7, jsonFenceTail_lit, List.take_succ_cons]
    exact ne_head_nl)]
  rw [show J ++ '\n' :: (tickChar :: (tickChar :: (tickChar :: []))) =
    (J ++ ['\n']) ++ [tickChar, tickChar, tickChar] from by
      rw [← List.append_cons]]
  rw [stripFenceMarks_append_no_tick jsonFenceTail _ _ (no_tick_append_newline h)]
  rw [stripJson_ticks3_lit]

/-- Full fence-stripping of a plain ```-wrapped payload. -/
theorem extract_plain_fenced (J : List Char) (h : ∀ c ∈ J, c ≠ tickChar) :
    stripPlainFences (stripJsonFences (trimChars
      (tickChar :: (plainFenceTail ++
        ('\n' :: (J ++ ('\n' :: (tickChar :: plainFenceTail)))))))) =
    if (J.dropWhile isSpaceCh).isEmpty then []
    else J.dropWhile isSpaceCh ++ ['\n'] := by
  rw [show plainFenceTail ++ ('\n' :: (J ++ ('\n' :: (tickChar :: plainFenceTail)))) =
    (plainFenceTail ++ ('\n' :: J)) ++ ('\n' :: (tickChar :: plainFenceTail)) from by
      simp [List.append_assoc]]
  rw [trimChars_tick_wrapped]
  rw [show (plainFenceTail ++ ('\n' :: J)) ++ ('\n' :: (tickChar :: plainFenceTail)) =
    plainFenceTail ++ ('\n' :: (J ++ ('\n' :: (tickChar :: plainFenceTail)))) from by
      simp [List.append_assoc]]
  rw [stripJson_plain_wrapped J h]
  unfold stripPlainFences
  rw [stripFenceMarks_match]
  rw [show ('\n' :: (J ++ ('\n' :: (tickChar :: plainFenceTail)))).dropWhile isSpaceCh =
    (J ++ ('\n' :: (tickChar :: plainFenceTail))).dropWhile isSpaceCh from by
      rw [List.dropWhile_cons, if_pos (by decide)]]
  exact stripPlain_dropped J h

theorem jsonParseJS_extracted (J : String) :
    jsonParseJS (String.mk (if (J.data.dropWhile isSpaceCh).isEmpty then []
      else J.data.dropWhile isSpaceCh ++ ['\n'])) =
    jsonParseJS (String.mk (trimChars J.data)) := by
  apply jsonParseJS_congr
  show trimChars (if (J.data.dropWhile isSpaceCh).isEmpty then []
      else J.data.dropWhile isSpaceCh ++ ['\n']) = trimChars (trimChars J.data)
  rw [trimChars_idem]
  by_cases hJ : (J.data.dropWhile isSpaceCh).isEmpty
  · rw [if_pos hJ]
    rw [List.isEmpty_iff] at hJ
    unfold trimChars
    rw [hJ]
    rfl
  · rw [if_neg hJ]
    exact trimChars_append_newline J.data

/-- C4. Fence stripping before parsing: a reply wrapping a backtick-free
JSON text in a markdown ```json fence, or in a plain ``` fence, is parsed
by `generateQuotation` to exactly the same result as the bare text, so
the fences are transparent to `JSON.parse`. -/
theorem c4_fence_stripping (J : String) (h : ∀ c ∈ J.data, c ≠ tickChar) :
    parseQuotationReply ("```json\n" ++ J ++ "\n```") =
      parseQuotationReply J ∧
    parseQuotationReply ("```\n" ++ J ++ "\n```") =
      parseQuotationReply J := by
  have hnt : ∀ c ∈ trimChars J.data, c ≠ tickChar := fun c hc => h c (mem_trimChars hc)
  have hbare : parseQuotationReply J = jsonParseJS (String.mk (trimChars J.data)) := by
    unfold parseQuotationReply extractJsonText
    rw [show stripJsonFences (trimChars J.data) = trimChars J.data from
      stripFenceMarks_no_tick jsonFenceTail _ hnt]
    rw [show stripPlainFences (trimChars J.data) = trimChars J.data from
      stripFenceMarks_no_tick plainFenceTail _ hnt]
  constructor
  · rw [hbare]
    show jsonParseJS (String.mk (stripPlainFences (stripJsonFences (trimChars
      ("```json\n" ++ J ++ "\n```").data)))) = _
    rw [show ("```json\n" ++ J ++ "\n```").data =
      tickChar :: (jsonFenceTail ++
        ('\n' :: (J.data ++ ('\n' :: (tickChar :: plainFenceTail))))) from by
        rw [String.data_append, String.data_append]
        rw [show ("```json\n" : String).data = (tickChar :: jsonFenceTail) ++ ['\n']
          from by decide]
        rw [show ("\n```" : String).data = '\n' :: (tickChar :: plainFenceTail)
          from by decide]
        simp [List.append_assoc]]
    rw [extract_json_fenced J.data h]
    exact jsonParseJS_extracted J
  · rw [hbare]
    show jsonParseJS (String.mk (stripPlainFences (stripJsonFences (trimChars
      ("```\n" ++ J ++ "\n```").data)))) = _
    rw [show ("```\n" ++ J ++ "\n```").data =
      tickChar :: (plainFenceTail ++
        ('\n' :: (J.data ++ ('\n' :: (tickChar :: plainFenceTail))))) from by
        rw [String.data_append, String.data_append]
        rw [show ("```\n" : String).data = (tickChar :: plainFenceTail) ++ ['\n']
          from by decide]
        rw [show ("\n```" : String).data = '\n' :: (tickChar :: plainFenceTail)
          from by decide]
        simp [List.append_assoc]]
    rw [extract_plain_fenced J.data h]
    exact jsonParseJS_extracted J

theorem c4_fence_stripping_witness :
    parseQuotationReply ("```json\n" ++ "\x7b \"total\": 42 \x7d" ++ "\n```") =
      parseQuotationReply "\x7b \"total\": 42 \x7d" ∧
    parseQuotationReply ("```\n" ++ "\x7b \"total\": 42 \x7d" ++ "\n```") =
      parseQuotationReply "\x7b \"total\": 42 \x7d" :=
  c4_fence_stripping "\x7b \"total\": 42 \x7d" (by decide)

end Omnigence
